import Mathlib

/-!
# Assassin `TransferManager`: task registry and reconciliation

A shallow embedding of `src/Assassin/TransferManager.cpp`.

* The two settings containers (`m_RootContainer.Values()`, `m_TasksContainer.Values()`)
  are association lists with the map operations the source calls
  (`HasKey`, `Lookup`, `Insert`, `Remove`).
* `m_TaskList` is a list of nullable task references: `none` is the `nullptr` tombstone.
* Every operation is a function from the manager state (and the outcomes of the external
  calls it awaits) to the new manager state and the result of the call. A C++ exception
  or a null dereference is an `Except.error`.
* `M2::AutoCriticalSectionLock` sets `m_TaskListUpdateCS`; each statement that touches
  `m_TaskList` or a container records the resource in `m_Unguarded` when the critical
  section is not held.
* `TransferTask`, `NAIsFinalTransferTaskStatus` and `M2FindSubString` are declared in other
  files of the project; their definitions below follow the specification. The case table
  `M2FindSubString` compares with is a parameter.
-/

namespace Assassin

/-! ## Data model -/

/-- Status of a transfer task (`winrt::TransferTaskStatus`). -/
inductive TransferTaskStatus
  | Canceled
  | Completed
  | Error
  | Paused
  | Queued
  | Running
  deriving DecidableEq, Repr

/-- Modelled from the spec: `NAIsFinalTransferTaskStatus` is defined outside
`TransferManager.cpp`. Section 3 and the glossary: the terminal statuses are Completed,
Error and Canceled. -/
def NAIsFinalTransferTaskStatus : TransferTaskStatus → Bool
  | .Completed => true
  | .Error => true
  | .Canceled => true
  | .Paused => false
  | .Queued => false
  | .Running => false

/-- A failure leaving a call: a C++ exception carrying an HRESULT, or the fault of calling
a method through a null interface pointer. -/
inductive Fault
  | hresult_error (code : Nat)
  | access_violation
  deriving DecidableEq, Repr

/-- The map behind `ApplicationDataContainer::Values()`: keys are unique, enumeration
follows the order of first insertion. -/
abbrev PropertySet (V : Type) := List (String × V)

namespace PropertySet

variable {V : Type}

/-- The keys, in enumeration order. -/
def keys (s : PropertySet V) : List String := s.map Prod.fst

/-- `IMap::HasKey`. -/
def HasKey (s : PropertySet V) (k : String) : Bool := s.any (fun e => decide (e.1 = k))

/-- `IMap::Lookup`, `none` when the key is absent. -/
def Lookup : PropertySet V → String → Option V
  | [], _ => none
  | e :: rest, k => if e.1 = k then some e.2 else Lookup rest k

/-- `IMap::Insert`: replaces the value under an existing key, adds the pair otherwise. -/
def Insert : PropertySet V → String → V → PropertySet V
  | [], k, v => [(k, v)]
  | e :: rest, k, v => if e.1 = k then (k, v) :: rest else e :: Insert rest k v

/-- `IMap::Remove`: the map without the key. Section 6 lists `remove(key)` with no failure
mode, so removing an absent key leaves the map as it is. -/
def Remove (s : PropertySet V) (k : String) : PropertySet V :=
  s.filter (fun e => decide (e.1 ≠ k))

end PropertySet

/-- The composite value `AddTaskAsync` stores for one task: the fields `SourceUri`,
`FileName`, `SaveFolder`, `Status` and `BackgroundTransferGuid`. -/
structure TaskConfig where
  SourceUri : String
  FileName : String
  SaveFolder : String
  Status : TransferTaskStatus
  BackgroundTransferGuid : String
  deriving DecidableEq, Repr

/-- A live handle of the background downloader (`winrt::DownloadOperation`). -/
structure DownloadOperation where
  Guid : String
  deriving DecidableEq, Repr

/-- A file returned by `CreateFileAsync` or held by a task (`winrt::IStorageFile`). -/
structure StorageFile where
  Name : String
  deriving DecidableEq, Repr

/-- Modelled from the spec: the class `TransferTask` is implemented outside
`TransferManager.cpp`. Section 3: a task handle wraps the record of one task (its id and
the record fields) plus a nullable reference to the live engine handle, the destination
file when the folder token resolves, and the instantaneous receive speed. -/
structure TransferTask where
  m_Guid : String
  m_SourceUri : String
  m_FileName : String
  m_SaveFolder : String
  m_Status : TransferTaskStatus
  m_BackgroundTransferGuid : String
  m_Operation : Option DownloadOperation
  m_SaveFile : Option StorageFile
  m_BytesReceivedSpeed : Nat
  deriving DecidableEq, Repr

namespace TransferTask

/-- Modelled from the spec: `TransferTask::GetTaskConfig` is implemented outside
`TransferManager.cpp`. Section 4.3: the current record snapshot of the task. -/
def GetTaskConfig (T : TransferTask) : TaskConfig :=
  { SourceUri := T.m_SourceUri
    FileName := T.m_FileName
    SaveFolder := T.m_SaveFolder
    Status := T.m_Status
    BackgroundTransferGuid := T.m_BackgroundTransferGuid }

/-- Modelled from the spec: `TransferTask::Initialize` is implemented outside
`TransferManager.cpp`. Section 4.2 step 3: the handle takes its id and fields from the
record; the live reference is attached when `engineHandleId` is found among the live
handles; otherwise the handle keeps the last persisted status and zero live-only metrics.
A folder token that does not resolve leaves the file handle absent. -/
def Initialize (Guid : String) (Config : TaskConfig)
    (GetFolderAsync : String → Option String)
    (DownloadsList : PropertySet DownloadOperation) : TransferTask :=
  { m_Guid := Guid
    m_SourceUri := Config.SourceUri
    m_FileName := Config.FileName
    m_SaveFolder := Config.SaveFolder
    m_Status := Config.Status
    m_BackgroundTransferGuid := Config.BackgroundTransferGuid
    m_Operation := PropertySet.Lookup DownloadsList Config.BackgroundTransferGuid
    m_SaveFile := (GetFolderAsync Config.SaveFolder).map (fun _ => { Name := Config.FileName })
    m_BytesReceivedSpeed := 0 }

/-- Modelled from the spec: `TransferTask::Cancel` is implemented outside
`TransferManager.cpp`. Sections 3 and 4.1: cancelling the live transfer leaves the task in
the terminal status Canceled; its id and the other record fields are unchanged. -/
def Cancel (T : TransferTask) : TransferTask := { T with m_Status := .Canceled }

/-- Modelled from the spec: `TransferTask::UpdateChangedProperties` is implemented outside
`TransferManager.cpp`. Section 3: after creation only the status and the engine-correlated
fields change; `engine` gives the status and receive speed the engine reports now. -/
def UpdateChangedProperties (engine : TransferTask → TransferTaskStatus × Nat)
    (T : TransferTask) : TransferTask :=
  { T with m_Status := (engine T).1, m_BytesReceivedSpeed := (engine T).2 }

end TransferTask

/-- The characters of a string under the case mapping `CaseMap`. -/
def foldCase (CaseMap : Char → Char) (s : String) : List Char := s.data.map CaseMap

/-- Whether `sub` occurs in `src` as a contiguous run. -/
def occursIn (sub : List Char) : List Char → Bool
  | [] => sub.isEmpty
  | c :: cs => sub.isPrefixOf (c :: cs) || occursIn sub cs

/-- Modelled from the spec: `M2FindSubString` is implemented outside
`TransferManager.cpp`. Section 4.1: the source string contains the sub string, compared
case-insensitively when `IgnoreCase` is set. The case table of the platform is not part
of the sources: it is the parameter `CaseMap`, applied to every character of both
strings. -/
def M2FindSubString (CaseMap : Char → Char) (SourceString SubString : String)
    (IgnoreCase : Bool) : Bool :=
  if IgnoreCase then occursIn (foldCase CaseMap SubString) (foldCase CaseMap SourceString)
  else occursIn SubString.data SourceString.data

/-- The resources the critical section `m_TaskListUpdateCS` protects. -/
inductive Resource
  | TaskList
  | TasksContainer
  | RootContainer
  deriving DecidableEq, Repr

/-- The fields of `TransferManager`. `m_TaskListUpdateCS` is true while the critical
section is held; `m_Unguarded` lists the accesses made while it was not. -/
structure TransferManager where
  m_TaskList : List (Option TransferTask)
  m_TasksContainer : PropertySet TaskConfig
  m_RootContainer : PropertySet String
  m_LastusedFolder : Option String
  m_DefaultFolder : Option String
  m_SearchFilter : String
  m_TotalDownloadBandwidth : Nat
  m_TotalUploadBandwidth : Nat
  m_TaskListUpdateCS : Bool
  m_Unguarded : List Resource
  deriving DecidableEq, Repr

namespace TransferManager

/-- Constructor of `M2::AutoCriticalSectionLock`: enters the critical section. -/
def AutoCriticalSectionLock (m : TransferManager) : TransferManager :=
  { m with m_TaskListUpdateCS := true }

/-- Destructor of `M2::AutoCriticalSectionLock`: leaves the critical section. -/
def AutoCriticalSectionUnlock (m : TransferManager) : TransferManager :=
  { m with m_TaskListUpdateCS := false }

/-- An access to a protected resource: recorded when the critical section is not held. -/
def touch (m : TransferManager) (r : Resource) : TransferManager :=
  if m.m_TaskListUpdateCS then m else { m with m_Unguarded := m.m_Unguarded ++ [r] }

/-- Getter `TransferManager::SearchFilter`. -/
def SearchFilter (m : TransferManager) : String := m.m_SearchFilter

/-- Setter `TransferManager::SearchFilter(value)`. -/
def put_SearchFilter (m : TransferManager) (value : String) : TransferManager :=
  { m with m_SearchFilter := value }

end TransferManager

open TransferManager

/-! ## `UpdateTransferTaskStatusWithoutLock` and the UI timer tick -/

/-- The loop of `UpdateTransferTaskStatusWithoutLock` over `m_TaskList`: a null slot is
skipped; for a task the record is inserted under its id, and with `NotifyUI` the task is
refreshed and its speed added to the 64-bit download total. Returns the task list, the
tasks container and the download total. -/
def UpdateTransferTaskStatusWithoutLock_loop (NotifyUI : Bool)
    (engine : TransferTask → TransferTaskStatus × Nat) :
    List (Option TransferTask) → PropertySet TaskConfig → Nat →
      List (Option TransferTask) × PropertySet TaskConfig × Nat
  | [], Values, Total => ([], Values, Total)
  | none :: rest, Values, Total =>
      let r := UpdateTransferTaskStatusWithoutLock_loop NotifyUI engine rest Values Total
      (none :: r.1, r.2.1, r.2.2)
  | some Task :: rest, Values, Total =>
      let Values1 := PropertySet.Insert Values Task.m_Guid Task.GetTaskConfig
      if NotifyUI then
        let Task1 := Task.UpdateChangedProperties engine
        let r := UpdateTransferTaskStatusWithoutLock_loop NotifyUI engine rest Values1
          ((Total + Task1.m_BytesReceivedSpeed) % 2 ^ 64)
        (some Task1 :: r.1, r.2.1, r.2.2)
      else
        let r := UpdateTransferTaskStatusWithoutLock_loop NotifyUI engine rest Values1 Total
        (some Task :: r.1, r.2.1, r.2.2)

/-- `TransferManager::UpdateTransferTaskStatusWithoutLock(NotifyUI)`. -/
def UpdateTransferTaskStatusWithoutLock (m : TransferManager) (NotifyUI : Bool)
    (engine : TransferTask → TransferTaskStatus × Nat) : TransferManager :=
  let m1 :=
    if NotifyUI then { m with m_TotalDownloadBandwidth := 0, m_TotalUploadBandwidth := 0 }
    else m
  let m2 := (m1.touch .TaskList).touch .TasksContainer
  let r := UpdateTransferTaskStatusWithoutLock_loop NotifyUI engine
    m2.m_TaskList m2.m_TasksContainer m2.m_TotalDownloadBandwidth
  { m2 with m_TaskList := r.1, m_TasksContainer := r.2.1, m_TotalDownloadBandwidth := r.2.2 }

/-- `TransferManager::UINotifyTimerTick`: the periodic UI refresh. -/
def UINotifyTimerTick (m : TransferManager)
    (engine : TransferTask → TransferTaskStatus × Nat) : TransferManager :=
  let m1 := m.AutoCriticalSectionLock
  let m2 := UpdateTransferTaskStatusWithoutLock m1 true engine
  m2.AutoCriticalSectionUnlock

/-! ## `GetTasksAsync` -/

/-- What `GetTasksAsync` obtains from its collaborators: the live downloads enumerated by
the engine, the resolution of folder tokens, the engine state, and the case table of the
platform used by `M2FindSubString`. -/
structure ListEnv where
  GetCurrentDownloadsAsync : List DownloadOperation
  GetFolderAsync : String → Option String
  engine : TransferTask → TransferTaskStatus × Nat
  CaseMap : Char → Char

/-- `std::map::insert`: keeps the element already stored under the key. -/
def DownloadsList_insert (DownloadsList : PropertySet DownloadOperation)
    (Item : DownloadOperation) : PropertySet DownloadOperation :=
  if PropertySet.HasKey DownloadsList Item.Guid then DownloadsList
  else DownloadsList ++ [(Item.Guid, Item)]

/-- The second loop of `GetTasksAsync`: one task per stored pair, pushed to the task list
unless a search filter is set and the file name does not contain it. -/
def GetTasksAsync_loop (CaseMap : Char → Char) (GetFolderAsync : String → Option String)
    (NeedSearchFilter : Bool) (CurrentSearchFilter : String)
    (DownloadsList : PropertySet DownloadOperation) :
    PropertySet TaskConfig → List (Option TransferTask) → List (Option TransferTask)
  | [], TaskList => TaskList
  | Download :: rest, TaskList =>
      let Task := TransferTask.Initialize Download.1 Download.2 GetFolderAsync DownloadsList
      if NeedSearchFilter &&
          !M2FindSubString CaseMap Task.m_FileName CurrentSearchFilter true then
        GetTasksAsync_loop CaseMap GetFolderAsync NeedSearchFilter CurrentSearchFilter
          DownloadsList rest TaskList
      else
        GetTasksAsync_loop CaseMap GetFolderAsync NeedSearchFilter CurrentSearchFilter
          DownloadsList rest (TaskList ++ [some Task])

/-- `TransferManager::GetTasksAsync`: the new manager state and the returned view. -/
def GetTasksAsync (m : TransferManager) (env : ListEnv) :
    TransferManager × List (Option TransferTask) :=
  let m1 := m.AutoCriticalSectionLock
  let m2 := UpdateTransferTaskStatusWithoutLock m1 false env.engine
  let m3 := { (m2.touch .TaskList) with m_TaskList := [] }
  let CurrentSearchFilter := m3.SearchFilter
  let NeedSearchFilter := !CurrentSearchFilter.isEmpty
  let DownloadsList := env.GetCurrentDownloadsAsync.foldl DownloadsList_insert []
  let m4 := (m3.touch .TasksContainer).touch .TaskList
  let m5 := { m4 with
    m_TaskList := GetTasksAsync_loop env.CaseMap env.GetFolderAsync NeedSearchFilter
      CurrentSearchFilter DownloadsList m4.m_TasksContainer m4.m_TaskList }
  (m5.AutoCriticalSectionUnlock, m5.m_TaskList)

/-- The registry operation `listTasks(searchFilter)`: sets the search filter, then lists. -/
def listTasks (m : TransferManager) (searchFilter : String) (env : ListEnv) :
    TransferManager × List (Option TransferTask) :=
  GetTasksAsync (m.put_SearchFilter searchFilter) env

/-! ## `AddTaskAsync` -/

/-- The collaborators of `AddTaskAsync`: `CreateFileAsync` of a save folder for a desired
name with `GenerateUniqueName` (the created file, or the failure), `Add` of the future
access list (the token of the folder), `CreateDownload` of the downloader for a source
URI and a file (the download, or the failure), the GUID `M2CreateGuid` returns, and the
call `StartAsync` of the download (made and not awaited: returns, or fails at the call). -/
structure AddEnv where
  CreateFileAsync : String → String → Except Fault StorageFile
  FutureAccessList_Add : String → String
  CreateDownload : String → StorageFile → Except Fault DownloadOperation
  M2CreateGuid : String
  StartAsync : DownloadOperation → Except Fault Unit

/-- `TransferManager::AddTaskAsync`. An exception of `CreateFileAsync`, `CreateDownload`
or `StartAsync` leaves the coroutine at that statement; `StartAsync` is called last, after
the record is stored, so the result of the call is its outcome. The source constructs no
`M2::AutoCriticalSectionLock` in this function. -/
def AddTaskAsync (m : TransferManager) (SourceUri : String) (DesiredFileName : String)
    (SaveFolder : String) (env : AddEnv) : TransferManager × Except Fault Unit :=
  match env.CreateFileAsync SaveFolder DesiredFileName with
  | .error e => (m, .error e)
  | .ok SaveFile =>
    let Token := env.FutureAccessList_Add SaveFolder
    let m1 := { m with m_LastusedFolder := some SaveFolder }
    let m2 := { (m1.touch .RootContainer) with
      m_RootContainer := PropertySet.Insert m1.m_RootContainer "LastusedFolder" Token }
    match env.CreateDownload SourceUri SaveFile with
    | .error e => (m2, .error e)
    | .ok Operation =>
      let Config : TaskConfig :=
        { SourceUri := SourceUri
          FileName := SaveFile.Name
          SaveFolder := Token
          Status := .Queued
          BackgroundTransferGuid := Operation.Guid }
      let m3 := { (m2.touch .TasksContainer) with
        m_TasksContainer := PropertySet.Insert m2.m_TasksContainer env.M2CreateGuid Config }
      (m3, env.StartAsync Operation)

/-! ## `RemoveTaskAsync` -/

/-- A `try { ... } catch (...) { }` block with an empty handler. -/
def catchAll (body : Except Fault Unit) : Except Fault Unit :=
  match body with
  | .ok u => .ok u
  | .error _ => .ok ()

/-- The loop of `RemoveTaskAsync` over the slots of `m_TaskList`: a null slot is skipped,
a slot whose task has the given id is set to null. -/
def RemoveTaskAsync_loop (Guid : String) : List (Option TransferTask) → List (Option TransferTask)
  | [] => []
  | none :: rest => none :: RemoveTaskAsync_loop Guid rest
  | some T :: rest =>
      if Guid = T.m_Guid then none :: RemoveTaskAsync_loop Guid rest
      else some T :: RemoveTaskAsync_loop Guid rest

/-- The body of the `try` block of `RemoveTaskAsync`: the destination file is deleted when
the task has one. -/
def RemoveTaskAsync_try (Task : TransferTask) (DeleteAsync : Except Fault Unit) :
    Except Fault Unit :=
  match Task.m_SaveFile with
  | some _ => DeleteAsync
  | none => .ok ()

/-- `TransferManager::RemoveTaskAsync`. `DeleteAsync` is the outcome of deleting the
destination file, should the deletion be attempted. -/
def RemoveTaskAsync (m : TransferManager) (Task : Option TransferTask)
    (DeleteAsync : Except Fault Unit) : TransferManager × Except Fault Unit :=
  let m1 := m.AutoCriticalSectionLock
  match Task with
  | none => (m1.AutoCriticalSectionUnlock, .error .access_violation)
  | some Task0 =>
    let Task1 := if !NAIsFinalTransferTaskStatus Task0.m_Status then Task0.Cancel else Task0
    let deleted : Except Fault Unit :=
      if TransferTaskStatus.Completed ≠ Task1.m_Status then
        catchAll (RemoveTaskAsync_try Task1 DeleteAsync)
      else .ok ()
    match deleted with
    | .error e => (m1.AutoCriticalSectionUnlock, .error e)
    | .ok _ =>
      let m2 := { (m1.touch .TaskList) with
        m_TaskList := RemoveTaskAsync_loop Task1.m_Guid m1.m_TaskList }
      let m3 := { (m2.touch .TasksContainer) with
        m_TasksContainer := PropertySet.Remove m2.m_TasksContainer Task1.m_Guid }
      (m3.AutoCriticalSectionUnlock, .ok ())

/-! ## Bulk operations -/

/-- The loop of `StartAllTasks`: a null slot is skipped, `Resume` is called on a task; an
exception of `Resume` leaves the loop. Returns the tasks `Resume` was called on. -/
def StartAllTasks_loop (Resume : TransferTask → Except Fault Unit) :
    List (Option TransferTask) → List TransferTask × Except Fault Unit
  | [] => ([], .ok ())
  | none :: rest => StartAllTasks_loop Resume rest
  | some T :: rest =>
      match Resume T with
      | .error e => ([T], .error e)
      | .ok _ => (T :: (StartAllTasks_loop Resume rest).1, (StartAllTasks_loop Resume rest).2)

/-- `TransferManager::StartAllTasks`: the new state, the tasks `Resume` was called on, and
the result of the call. -/
def StartAllTasks (m : TransferManager) (Resume : TransferTask → Except Fault Unit) :
    TransferManager × List TransferTask × Except Fault Unit :=
  let m1 := m.AutoCriticalSectionLock
  let m2 := m1.touch .TaskList
  let r := StartAllTasks_loop Resume m2.m_TaskList
  (m2.AutoCriticalSectionUnlock, r.1, r.2)

/-- The loop of `PauseAllTasks`: a null slot is skipped, `Pause` is called on a task; an
exception of `Pause` leaves the loop. Returns the tasks `Pause` was called on. -/
def PauseAllTasks_loop (Pause : TransferTask → Except Fault Unit) :
    List (Option TransferTask) → List TransferTask × Except Fault Unit
  | [] => ([], .ok ())
  | none :: rest => PauseAllTasks_loop Pause rest
  | some T :: rest =>
      match Pause T with
      | .error e => ([T], .error e)
      | .ok _ => (T :: (PauseAllTasks_loop Pause rest).1, (PauseAllTasks_loop Pause rest).2)

/-- `TransferManager::PauseAllTasks`: the new state, the tasks `Pause` was called on, and
the result of the call. -/
def PauseAllTasks (m : TransferManager) (Pause : TransferTask → Except Fault Unit) :
    TransferManager × List TransferTask × Except Fault Unit :=
  let m1 := m.AutoCriticalSectionLock
  let m2 := m1.touch .TaskList
  let r := PauseAllTasks_loop Pause m2.m_TaskList
  (m2.AutoCriticalSectionUnlock, r.1, r.2)

/-- The loop of `ClearTaskList`: `Task.Status()` is read on every slot, with no null
check, so a null slot faults; `RemoveTaskAsync` is started for a task whose status is
final. Returns the tasks `RemoveTaskAsync` was started for. -/
def ClearTaskList_loop : List (Option TransferTask) → List TransferTask × Except Fault Unit
  | [] => ([], .ok ())
  | none :: _ => ([], .error .access_violation)
  | some T :: rest =>
      if NAIsFinalTransferTaskStatus T.m_Status then
        (T :: (ClearTaskList_loop rest).1, (ClearTaskList_loop rest).2)
      else ClearTaskList_loop rest

/-- `TransferManager::ClearTaskList`: the new state, the tasks `RemoveTaskAsync` was
started for (each removal resumes in the background and runs once the critical section
is free), and the result of the call. -/
def ClearTaskList (m : TransferManager) :
    TransferManager × List TransferTask × Except Fault Unit :=
  let m1 := m.AutoCriticalSectionLock
  let m2 := m1.touch .TaskList
  let r := ClearTaskList_loop m2.m_TaskList
  (m2.AutoCriticalSectionUnlock, r.1, r.2)

/-! ## Sequential runs of the registry -/

/-- One registry operation of a sequential run, with the outcomes of its external calls:
`addTask`, `removeTask`, `listTasks`, or a tick of the UI timer. -/
inductive Op
  | addTask (SourceUri DesiredFileName SaveFolder : String) (env : AddEnv)
  | removeTask (Task : Option TransferTask) (DeleteAsync : Except Fault Unit)
  | listTasks (searchFilter : String) (env : ListEnv)
  | tick (engine : TransferTask → TransferTaskStatus × Nat)

/-- The manager state after one operation. -/
def step (m : TransferManager) : Op → TransferManager
  | .addTask SourceUri DesiredFileName SaveFolder env =>
      (AddTaskAsync m SourceUri DesiredFileName SaveFolder env).1
  | .removeTask Task DeleteAsync => (RemoveTaskAsync m Task DeleteAsync).1
  | .listTasks searchFilter env => (listTasks m searchFilter env).1
  | .tick engine => UINotifyTimerTick m engine

/-- The manager state after the operations, executed one after another. -/
def run (m : TransferManager) (ops : List Op) : TransferManager := ops.foldl step m

/-- The operation is an `addTask` that stores a record under `k`: the file and the
download are created and the new GUID is `k`. -/
def Op.adds (k : String) : Op → Bool
  | .addTask SourceUri DesiredFileName SaveFolder env =>
      match env.CreateFileAsync SaveFolder DesiredFileName with
      | .error _ => false
      | .ok SaveFile =>
        match env.CreateDownload SourceUri SaveFile with
        | .error _ => false
        | .ok _ => decide (env.M2CreateGuid = k)
  | .removeTask _ _ => false
  | .listTasks _ _ => false
  | .tick _ => false

/-- The operation is a `removeTask` of a handle whose id is `k`. -/
def Op.removes (k : String) : Op → Bool
  | .removeTask (some T) _ => decide (T.m_Guid = k)
  | .removeTask none _ => false
  | .addTask _ _ _ _ => false
  | .listTasks _ _ => false
  | .tick _ => false

/-- Every non-tombstoned handle of the collection has an id that is a key of the Tasks
store. -/
def Consistent (m : TransferManager) : Prop :=
  ∀ T, some T ∈ m.m_TaskList → T.m_Guid ∈ PropertySet.keys m.m_TasksContainer

/-- For an `addTask`, the GUID that `M2CreateGuid` returns is not yet a key of the Tasks
store; true of every other operation. -/
def Op.fresh (m : TransferManager) : Op → Bool
  | .addTask _ _ _ env => !PropertySet.HasKey m.m_TasksContainer env.M2CreateGuid
  | .removeTask _ _ => true
  | .listTasks _ _ => true
  | .tick _ => true

/-- Every `addTask` of the run gets a GUID that is not a key of the store it is added to. -/
def freshGuids : TransferManager → List Op → Bool
  | _, [] => true
  | m, op :: ops => op.fresh m && freshGuids (step m op) ops

/-- The keys of the Tasks store are pairwise distinct, and every non-tombstoned handle of
the collection has the id and the file name of a stored record. -/
def Reconciled (m : TransferManager) : Prop :=
  (PropertySet.keys m.m_TasksContainer).Nodup ∧
  ∀ T, some T ∈ m.m_TaskList →
    ∃ r, PropertySet.Lookup m.m_TasksContainer T.m_Guid = some r ∧ r.FileName = T.m_FileName

/-! ## Auxiliary definitions and sample values -/

/-- The pairs of key and file name of the stored records, in enumeration order. -/
def fileNames (c : PropertySet TaskConfig) : List (String × String) :=
  c.map (fun e => (e.1, e.2.FileName))

/-- The test the second loop of `GetTasksAsync` applies to a stored pair. -/
def keeps (CaseMap : Char → Char) (NeedSearchFilter : Bool) (CurrentSearchFilter : String)
    (e : String × TaskConfig) : Bool :=
  !(NeedSearchFilter && !M2FindSubString CaseMap e.2.FileName CurrentSearchFilter true)

/-- The number of slots of a view that hold a handle with the id `k`. -/
def handlesWithId (k : String) (view : List (Option TransferTask)) : Nat :=
  (view.filter (fun slot => decide (slot.map TransferTask.m_Guid = some k))).length

/-- A sample task handle. -/
def sampleTask (Guid FileName : String) (Status : TransferTaskStatus) : TransferTask :=
  { m_Guid := Guid
    m_SourceUri := "http://x/" ++ FileName
    m_FileName := FileName
    m_SaveFolder := "token-F"
    m_Status := Status
    m_BackgroundTransferGuid := "op-" ++ Guid
    m_Operation := none
    m_SaveFile := some { Name := FileName }
    m_BytesReceivedSpeed := 0 }

/-- A sample manager state with the given task list and stored records, the critical
section free and no unguarded access recorded. -/
def sampleManager (TaskList : List (Option TransferTask))
    (Tasks : PropertySet TaskConfig) : TransferManager :=
  { m_TaskList := TaskList
    m_TasksContainer := Tasks
    m_RootContainer := []
    m_LastusedFolder := none
    m_DefaultFolder := none
    m_SearchFilter := ""
    m_TotalDownloadBandwidth := 0
    m_TotalUploadBandwidth := 0
    m_TaskListUpdateCS := false
    m_Unguarded := [] }

/-- A sample environment of a listing: no live download, every folder token resolves, the
engine reports what the task already holds, and the case table folds the letters A to Z. -/
def sampleListEnv : ListEnv :=
  { GetCurrentDownloadsAsync := []
    GetFolderAsync := fun token => some token
    engine := fun T => (T.m_Status, T.m_BytesReceivedSpeed)
    CaseMap := Char.toLower }

/-- A sample environment of `AddTaskAsync`: the file `file.bin` is created under the name
`file (2).bin`, the folder token is `token-F`, and the engine refuses the download. -/
def sampleAddEnvRefused : AddEnv :=
  { CreateFileAsync := fun _ _ => .ok { Name := "file (2).bin" }
    FutureAccessList_Add := fun SaveFolder => "token-" ++ SaveFolder
    CreateDownload := fun _ _ => .error (.hresult_error 7)
    M2CreateGuid := "g9"
    StartAsync := fun _ => .ok () }

/-- A sample environment of `AddTaskAsync` in which every step succeeds. -/
def sampleAddEnv : AddEnv :=
  { CreateFileAsync := fun _ _ => .ok { Name := "file (2).bin" }
    FutureAccessList_Add := fun SaveFolder => "token-" ++ SaveFolder
    CreateDownload := fun _ _ => .ok { Guid := "op-9" }
    M2CreateGuid := "g9"
    StartAsync := fun _ => .ok () }

/-- A sample task-level command that fails on the task `g1` and succeeds on every other
task. -/
def sampleFailsOnG1 (T : TransferTask) : Except Fault Unit :=
  if T.m_Guid = "g1" then .error (.hresult_error 1) else .ok ()

/-- A sample registry after a restart: the store holds `g1` (`My-File.bin`) and `g2`
(`other.txt`), the collection is empty. -/
def sampleRegistry : TransferManager :=
  sampleManager []
    [("g1", (sampleTask "g1" "My-File.bin" .Queued).GetTaskConfig),
     ("g2", (sampleTask "g2" "other.txt" .Queued).GetTaskConfig)]

/-- A sample run before a listing: list, add `g9`, tick. -/
def sampleOpsBeforeListing : List Op :=
  [ .listTasks "" sampleListEnv,
    .addTask "http://x/file.bin" "file.bin" "F" sampleAddEnv,
    .tick sampleListEnv.engine ]

/-- A sample run: list, add `g9`, tick, remove `g1`, list with a filter, tick. -/
def sampleOps : List Op :=
  [ .listTasks "" sampleListEnv,
    .addTask "http://x/file.bin" "file.bin" "F" sampleAddEnv,
    .tick sampleListEnv.engine,
    .removeTask (some (sampleTask "g1" "a.bin" .Paused)) (.error (.hresult_error 5)),
    .listTasks "file" sampleListEnv,
    .tick sampleListEnv.engine ]

/-! # Properties -/

/-! ## Lemmas on the settings map -/

namespace PropertySet

variable {V : Type}

theorem Lookup_Insert_self (s : PropertySet V) (k : String) (v : V) :
    Lookup (Insert s k v) k = some v := by
  induction s with
  | nil => simp [Insert, Lookup]
  | cons e rest ih =>
    by_cases h : e.1 = k
    · simp [Insert, Lookup, h]
    · simp [Insert, Lookup, h, ih]

theorem Lookup_Insert_of_ne (s : PropertySet V) {k k' : String} (v : V) (h : k' ≠ k) :
    Lookup (Insert s k v) k' = Lookup s k' := by
  induction s with
  | nil => simp [Insert, Lookup, Ne.symm h]
  | cons e rest ih =>
    by_cases he : e.1 = k
    · have : ¬ e.1 = k' := fun h' => h (h'.symm.trans he)
      simp [Insert, Lookup, he, this, Ne.symm h]
    · simp only [Insert, if_neg he, Lookup, ih]

theorem mem_keys_Insert (s : PropertySet V) (k k' : String) (v : V) :
    k' ∈ keys (Insert s k v) ↔ k' = k ∨ k' ∈ keys s := by
  induction s with
  | nil => simp [Insert, keys]
  | cons e rest ih =>
    by_cases he : e.1 = k
    · simp only [Insert, he, if_true, keys, List.map_cons, List.mem_cons]
      tauto
    · simp only [keys] at ih
      simp only [Insert, he, if_false, keys, List.map_cons, List.mem_cons, ih]
      tauto

theorem keys_Insert_of_mem (s : PropertySet V) {k : String} (v : V) (h : k ∈ keys s) :
    keys (Insert s k v) = keys s := by
  induction s with
  | nil => simp [keys] at h
  | cons e rest ih =>
    by_cases he : e.1 = k
    · simp [Insert, he, keys]
    · have hr : k ∈ keys rest := by
        simp only [keys, List.map_cons, List.mem_cons] at h
        rcases h with h | h
        · exact absurd h.symm he
        · exact h
      simp only [keys] at ih
      simp [Insert, he, keys, ih hr]

theorem Insert_of_not_mem (s : PropertySet V) {k : String} (v : V) (h : k ∉ keys s) :
    Insert s k v = s ++ [(k, v)] := by
  induction s with
  | nil => simp [Insert]
  | cons e rest ih =>
    simp only [keys, List.map_cons, List.mem_cons, not_or] at h
    have he : ¬ e.1 = k := fun h' => h.1 h'.symm
    simp only [keys] at ih
    simp [Insert, he, ih h.2]

theorem nodup_keys_Insert (s : PropertySet V) (k : String) (v : V) (h : (keys s).Nodup) :
    (keys (Insert s k v)).Nodup := by
  by_cases hk : k ∈ keys s
  · rw [keys_Insert_of_mem s v hk]
    exact h
  · rw [Insert_of_not_mem s v hk]
    simp only [keys, List.map_append, List.map_cons, List.map_nil]
    rw [List.nodup_append]
    refine ⟨h, List.nodup_singleton _, ?_⟩
    intro a ha hb
    rw [List.mem_singleton] at hb
    exact hk (hb ▸ ha)

theorem mem_keys_Remove (s : PropertySet V) (k k' : String) :
    k' ∈ keys (Remove s k) ↔ k' ∈ keys s ∧ k' ≠ k := by
  simp only [keys, Remove, List.mem_map, List.mem_filter, decide_eq_true_eq]
  constructor
  · rintro ⟨e, ⟨he, hne⟩, rfl⟩
    exact ⟨⟨e, he, rfl⟩, hne⟩
  · rintro ⟨⟨e, he, rfl⟩, hne⟩
    exact ⟨e, ⟨he, hne⟩, rfl⟩

theorem Lookup_eq_none_iff (s : PropertySet V) (k : String) :
    Lookup s k = none ↔ k ∉ keys s := by
  induction s with
  | nil => simp [Lookup, keys]
  | cons e rest ih =>
    simp only [keys] at ih
    by_cases he : e.1 = k
    · simp [Lookup, keys, he]
    · have : ¬ k = e.1 := fun h => he h.symm
      simp [Lookup, keys, he, ih, this]

theorem Lookup_Remove_self (s : PropertySet V) (k : String) :
    Lookup (Remove s k) k = none := by
  rw [Lookup_eq_none_iff, mem_keys_Remove]
  simp

theorem Remove_cons (e : String × V) (rest : PropertySet V) (k : String) :
    Remove (e :: rest) k = if e.1 = k then Remove rest k else e :: Remove rest k := by
  by_cases he : e.1 = k <;> simp [Remove, List.filter_cons, he]

theorem Lookup_Remove_of_ne (s : PropertySet V) {k k' : String} (h : k' ≠ k) :
    Lookup (Remove s k) k' = Lookup s k' := by
  induction s with
  | nil => rfl
  | cons e rest ih =>
    rw [Remove_cons]
    by_cases he : e.1 = k
    · have hne : ¬ e.1 = k' := fun h' => h (h'.symm.trans he)
      rw [if_pos he, ih]
      simp only [Lookup, if_neg hne]
    · rw [if_neg he]
      simp only [Lookup, ih]

theorem Remove_of_not_mem (s : PropertySet V) {k : String} (h : k ∉ keys s) :
    Remove s k = s := by
  simp only [Remove, List.filter_eq_self, decide_eq_true_eq]
  intro e he heq
  exact h (by simpa [keys] using ⟨e.2, by rw [← heq]; exact he⟩)

theorem Lookup_eq_some_of_mem (s : PropertySet V) (hnd : (keys s).Nodup) {k : String} {v : V}
    (h : (k, v) ∈ s) : Lookup s k = some v := by
  induction s with
  | nil => simp at h
  | cons e rest ih =>
    simp only [keys, List.map_cons, List.nodup_cons] at hnd
    simp only [keys] at ih
    rcases List.mem_cons.mp h with h | h
    · subst h
      simp [Lookup]
    · have : ¬ e.1 = k := by
        intro he
        apply hnd.1
        rw [he]
        exact List.mem_map.mpr ⟨(k, v), h, rfl⟩
      simp [Lookup, this, ih hnd.2 h]

theorem mem_of_Lookup_eq_some (s : PropertySet V) {k : String} {v : V}
    (h : Lookup s k = some v) : (k, v) ∈ s := by
  induction s with
  | nil => simp [Lookup] at h
  | cons e rest ih =>
    by_cases he : e.1 = k
    · simp only [Lookup, he, if_true, Option.some.injEq] at h
      have : e = (k, v) := by
        cases e
        simp only at he h
        rw [he, h]
      simp [this]
    · simp only [Lookup, he, if_false] at h
      exact List.mem_cons_of_mem _ (ih h)

end PropertySet

/-! ## Lemmas on the critical section -/

theorem touch_m_TaskList (m : TransferManager) (r : Resource) :
    (m.touch r).m_TaskList = m.m_TaskList := by
  unfold touch
  split <;> rfl

theorem touch_m_TasksContainer (m : TransferManager) (r : Resource) :
    (m.touch r).m_TasksContainer = m.m_TasksContainer := by
  unfold touch
  split <;> rfl

theorem touch_m_RootContainer (m : TransferManager) (r : Resource) :
    (m.touch r).m_RootContainer = m.m_RootContainer := by
  unfold touch
  split <;> rfl

theorem touch_m_TaskListUpdateCS (m : TransferManager) (r : Resource) :
    (m.touch r).m_TaskListUpdateCS = m.m_TaskListUpdateCS := by
  unfold touch
  split <;> rfl

theorem touch_of_held (m : TransferManager) (r : Resource) (h : m.m_TaskListUpdateCS = true) :
    m.touch r = m := by
  unfold touch
  rw [if_pos h]

theorem touch_of_free (m : TransferManager) (r : Resource) (h : m.m_TaskListUpdateCS = false) :
    (m.touch r).m_Unguarded = m.m_Unguarded ++ [r] := by
  unfold touch
  rw [if_neg (by simp [h])]

/-! ## Lemmas on the status flush -/

open PropertySet

theorem flush_mem_keys (n : Bool) (engine : TransferTask → TransferTaskStatus × Nat)
    (l : List (Option TransferTask)) (c : PropertySet TaskConfig) (t : Nat) (k : String) :
    k ∈ keys (UpdateTransferTaskStatusWithoutLock_loop n engine l c t).2.1 ↔
      k ∈ keys c ∨ ∃ T, some T ∈ l ∧ T.m_Guid = k := by
  induction l generalizing c t with
  | nil => simp [UpdateTransferTaskStatusWithoutLock_loop]
  | cons slot rest ih =>
    cases slot with
    | none => simp [UpdateTransferTaskStatusWithoutLock_loop, ih]
    | some T =>
      cases n <;>
        simp only [UpdateTransferTaskStatusWithoutLock_loop, ih, mem_keys_Insert, if_true,
          List.mem_cons, Option.some.injEq, Bool.false_eq_true, if_false] <;>
        constructor
      · rintro ((h | h) | ⟨T', hT', h⟩)
        · exact Or.inr ⟨T, Or.inl rfl, h.symm⟩
        · exact Or.inl h
        · exact Or.inr ⟨T', Or.inr hT', h⟩
      · rintro (h | ⟨T', hT' | hT', h⟩)
        · exact Or.inl (Or.inr h)
        · exact Or.inl (Or.inl (by rw [← h, hT']))
        · exact Or.inr ⟨T', hT', h⟩
      · rintro ((h | h) | ⟨T', hT', h⟩)
        · exact Or.inr ⟨T, Or.inl rfl, h.symm⟩
        · exact Or.inl h
        · exact Or.inr ⟨T', Or.inr hT', h⟩
      · rintro (h | ⟨T', hT' | hT', h⟩)
        · exact Or.inl (Or.inr h)
        · exact Or.inl (Or.inl (by rw [← h, hT']))
        · exact Or.inr ⟨T', hT', h⟩

theorem flush_keys_eq (n : Bool) (engine : TransferTask → TransferTaskStatus × Nat)
    (l : List (Option TransferTask)) (c : PropertySet TaskConfig) (t : Nat)
    (h : ∀ T, some T ∈ l → T.m_Guid ∈ keys c) :
    keys (UpdateTransferTaskStatusWithoutLock_loop n engine l c t).2.1 = keys c := by
  induction l generalizing c t with
  | nil => simp [UpdateTransferTaskStatusWithoutLock_loop]
  | cons slot rest ih =>
    have hrest : ∀ T, some T ∈ rest → T.m_Guid ∈ keys c :=
      fun T hT => h T (List.mem_cons_of_mem _ hT)
    cases slot with
    | none => simpa [UpdateTransferTaskStatusWithoutLock_loop] using ih c t hrest
    | some T =>
      have hT : T.m_Guid ∈ keys c := h T (List.mem_cons_self _ _)
      have hk : keys (Insert c T.m_Guid T.GetTaskConfig) = keys c := keys_Insert_of_mem c _ hT
      have hrest1 : ∀ T1, some T1 ∈ rest →
          T1.m_Guid ∈ keys (Insert c T.m_Guid T.GetTaskConfig) := by
        intro T1 hT1
        rw [hk]
        exact hrest T1 hT1
      cases n
      · simp only [UpdateTransferTaskStatusWithoutLock_loop, Bool.false_eq_true, if_false]
        rw [ih _ _ hrest1, hk]
      · simp only [UpdateTransferTaskStatusWithoutLock_loop, if_true]
        rw [ih _ _ hrest1, hk]

theorem flush_keys_nodup (n : Bool) (engine : TransferTask → TransferTaskStatus × Nat)
    (l : List (Option TransferTask)) (c : PropertySet TaskConfig) (t : Nat)
    (h : (keys c).Nodup) :
    (keys (UpdateTransferTaskStatusWithoutLock_loop n engine l c t).2.1).Nodup := by
  induction l generalizing c t with
  | nil => simpa [UpdateTransferTaskStatusWithoutLock_loop] using h
  | cons slot rest ih =>
    cases slot with
    | none => simpa [UpdateTransferTaskStatusWithoutLock_loop] using ih c t h
    | some T =>
      have h1 := nodup_keys_Insert c T.m_Guid T.GetTaskConfig h
      cases n
      · simp only [UpdateTransferTaskStatusWithoutLock_loop, Bool.false_eq_true, if_false]
        exact ih _ _ h1
      · simp only [UpdateTransferTaskStatusWithoutLock_loop, if_true]
        exact ih _ _ h1

theorem flush_Lookup_of_not_mem (n : Bool) (engine : TransferTask → TransferTaskStatus × Nat)
    (l : List (Option TransferTask)) (c : PropertySet TaskConfig) (t : Nat) (k : String)
    (h : ∀ T, some T ∈ l → T.m_Guid ≠ k) :
    Lookup (UpdateTransferTaskStatusWithoutLock_loop n engine l c t).2.1 k = Lookup c k := by
  induction l generalizing c t with
  | nil => simp [UpdateTransferTaskStatusWithoutLock_loop]
  | cons slot rest ih =>
    have hrest : ∀ T, some T ∈ rest → T.m_Guid ≠ k :=
      fun T hT => h T (List.mem_cons_of_mem _ hT)
    cases slot with
    | none => simpa [UpdateTransferTaskStatusWithoutLock_loop] using ih c t hrest
    | some T =>
      have hT : k ≠ T.m_Guid := fun hk => h T (List.mem_cons_self _ _) hk.symm
      cases n
      · simp only [UpdateTransferTaskStatusWithoutLock_loop, Bool.false_eq_true, if_false]
        rw [ih _ _ hrest, Lookup_Insert_of_ne c _ hT]
      · simp only [UpdateTransferTaskStatusWithoutLock_loop, if_true]
        rw [ih _ _ hrest, Lookup_Insert_of_ne c _ hT]

theorem flush_all_none (n : Bool) (engine : TransferTask → TransferTaskStatus × Nat)
    (l : List (Option TransferTask)) (c : PropertySet TaskConfig) (t : Nat)
    (h : ∀ slot ∈ l, slot = none) :
    (UpdateTransferTaskStatusWithoutLock_loop n engine l c t).2.1 = c := by
  induction l generalizing c t with
  | nil => simp [UpdateTransferTaskStatusWithoutLock_loop]
  | cons slot rest ih =>
    have hs : slot = none := h slot (List.mem_cons_self _ _)
    subst hs
    simpa [UpdateTransferTaskStatusWithoutLock_loop] using
      ih c t (fun s hs => h s (List.mem_cons_of_mem _ hs))

theorem flush_Lookup_mem (engine : TransferTask → TransferTaskStatus × Nat)
    (l : List (Option TransferTask)) (c : PropertySet TaskConfig) (t : Nat)
    (k : String) (hk : ∃ T, some T ∈ l ∧ T.m_Guid = k) :
    ∃ T1, some T1 ∈ l ∧ T1.m_Guid = k ∧
      Lookup (UpdateTransferTaskStatusWithoutLock_loop false engine l c t).2.1 k =
        some T1.GetTaskConfig := by
  induction l generalizing c t with
  | nil => simp at hk
  | cons slot rest ih =>
    by_cases hr : ∃ T2, some T2 ∈ rest ∧ T2.m_Guid = k
    · cases slot with
      | none =>
        obtain ⟨T1, h1, h2, h3⟩ := ih c t hr
        exact ⟨T1, List.mem_cons_of_mem _ h1, h2, by
          simpa [UpdateTransferTaskStatusWithoutLock_loop] using h3⟩
      | some T0 =>
        obtain ⟨T1, h1, h2, h3⟩ := ih (PropertySet.Insert c T0.m_Guid T0.GetTaskConfig) t hr
        exact ⟨T1, List.mem_cons_of_mem _ h1, h2, by
          simpa [UpdateTransferTaskStatusWithoutLock_loop] using h3⟩
    · have hne : ∀ T2, some T2 ∈ rest → T2.m_Guid ≠ k :=
        fun T2 h2 hg => hr ⟨T2, h2, hg⟩
      obtain ⟨T, hT, hg⟩ := hk
      rcases List.mem_cons.mp hT with h0 | h0
      · subst h0
        refine ⟨T, List.mem_cons_self _ _, hg, ?_⟩
        simp only [UpdateTransferTaskStatusWithoutLock_loop, Bool.false_eq_true, if_false]
        rw [flush_Lookup_of_not_mem _ _ _ _ _ _ hne, ← hg, Lookup_Insert_self]
      · exact absurd hg (hne T h0)

theorem flush_list_false (engine : TransferTask → TransferTaskStatus × Nat)
    (l : List (Option TransferTask)) (c : PropertySet TaskConfig) (t : Nat) :
    (UpdateTransferTaskStatusWithoutLock_loop false engine l c t).1 = l := by
  induction l generalizing c t with
  | nil => simp [UpdateTransferTaskStatusWithoutLock_loop]
  | cons slot rest ih =>
    cases slot <;> simp [UpdateTransferTaskStatusWithoutLock_loop, ih]

theorem flush_list_guids (n : Bool) (engine : TransferTask → TransferTaskStatus × Nat)
    (l : List (Option TransferTask)) (c : PropertySet TaskConfig) (t : Nat) :
    (UpdateTransferTaskStatusWithoutLock_loop n engine l c t).1.map
        (Option.map TransferTask.m_Guid) = l.map (Option.map TransferTask.m_Guid) := by
  induction l generalizing c t with
  | nil => simp [UpdateTransferTaskStatusWithoutLock_loop]
  | cons slot rest ih =>
    cases slot with
    | none => simp [UpdateTransferTaskStatusWithoutLock_loop, ih]
    | some T =>
      cases n <;>
        simp [UpdateTransferTaskStatusWithoutLock_loop, ih,
          TransferTask.UpdateChangedProperties]

theorem fileNames_Insert (c : PropertySet TaskConfig) (k : String) (v r : TaskConfig)
    (h : Lookup c k = some r) (hf : r.FileName = v.FileName) :
    fileNames (Insert c k v) = fileNames c := by
  induction c with
  | nil => simp [Lookup] at h
  | cons e rest ih =>
    by_cases he : e.1 = k
    · simp only [Lookup, if_pos he, Option.some.injEq] at h
      simp only [PropertySet.Insert, if_pos he, fileNames, List.map_cons, List.cons.injEq,
        and_true, Prod.mk.injEq]
      exact ⟨he.symm, by rw [← hf, ← h]⟩
    · simp only [Lookup, if_neg he] at h
      simp only [fileNames] at ih
      simp only [PropertySet.Insert, if_neg he, fileNames, List.map_cons, ih h]

theorem flush_fileNames (n : Bool) (engine : TransferTask → TransferTaskStatus × Nat)
    (l : List (Option TransferTask)) (c : PropertySet TaskConfig) (t : Nat)
    (h : ∀ T, some T ∈ l → ∃ r, Lookup c T.m_Guid = some r ∧ r.FileName = T.m_FileName) :
    fileNames (UpdateTransferTaskStatusWithoutLock_loop n engine l c t).2.1 = fileNames c := by
  induction l generalizing c t with
  | nil => simp [UpdateTransferTaskStatusWithoutLock_loop]
  | cons slot rest ih =>
    have hrest : ∀ T, some T ∈ rest →
        ∃ r, Lookup c T.m_Guid = some r ∧ r.FileName = T.m_FileName :=
      fun T hT => h T (List.mem_cons_of_mem _ hT)
    cases slot with
    | none => simpa [UpdateTransferTaskStatusWithoutLock_loop] using ih c t hrest
    | some T =>
      obtain ⟨r, hr, hrf⟩ := h T (List.mem_cons_self _ _)
      have hk : fileNames (Insert c T.m_Guid T.GetTaskConfig) = fileNames c :=
        fileNames_Insert c _ _ r hr (by simpa [TransferTask.GetTaskConfig] using hrf)
      have hrest1 : ∀ T1, some T1 ∈ rest →
          ∃ r1, Lookup (Insert c T.m_Guid T.GetTaskConfig) T1.m_Guid = some r1 ∧
            r1.FileName = T1.m_FileName := by
        intro T1 hT1
        obtain ⟨r1, hr1, hrf1⟩ := hrest T1 hT1
        by_cases hg : T1.m_Guid = T.m_Guid
        · refine ⟨T.GetTaskConfig, by rw [hg, Lookup_Insert_self], ?_⟩
          rw [hg, hr] at hr1
          simp only [Option.some.injEq] at hr1
          rw [← hrf1, ← hr1, hrf]
          rfl
        · exact ⟨r1, by rw [Lookup_Insert_of_ne c _ hg]; exact hr1, hrf1⟩
      cases n
      · simp only [UpdateTransferTaskStatusWithoutLock_loop, Bool.false_eq_true, if_false]
        rw [ih _ _ hrest1, hk]
      · simp only [UpdateTransferTaskStatusWithoutLock_loop, if_true]
        rw [ih _ _ hrest1, hk]

/-! ## Lemmas on `GetTasksAsync` -/

theorem Initialize_m_Guid (k : String) (r : TaskConfig) (g : String → Option String)
    (dl : PropertySet DownloadOperation) : (TransferTask.Initialize k r g dl).m_Guid = k := rfl

theorem Initialize_m_FileName (k : String) (r : TaskConfig) (g : String → Option String)
    (dl : PropertySet DownloadOperation) :
    (TransferTask.Initialize k r g dl).m_FileName = r.FileName := rfl

theorem GetTasksAsync_loop_eq (cm : Char → Char) (g : String → Option String) (need : Bool)
    (f : String) (dl : PropertySet DownloadOperation) (c : PropertySet TaskConfig)
    (acc : List (Option TransferTask)) :
    GetTasksAsync_loop cm g need f dl c acc =
      acc ++ (c.filter (keeps cm need f)).map
        (fun e => some (TransferTask.Initialize e.1 e.2 g dl)) := by
  induction c generalizing acc with
  | nil => simp [GetTasksAsync_loop]
  | cons e rest ih =>
    by_cases h : (need && !M2FindSubString cm e.2.FileName f true) = true
    · have hk : keeps cm need f e = false := by
        unfold keeps
        rw [h]
        rfl
      simp only [GetTasksAsync_loop, Initialize_m_FileName, h, if_true, ih,
        List.filter_cons, hk, Bool.false_eq_true, if_false]
    · have h1 : (need && !M2FindSubString cm e.2.FileName f true) = false :=
        Bool.eq_false_iff.mpr h
      have hk : keeps cm need f e = true := by
        unfold keeps
        rw [h1]
        rfl
      simp only [GetTasksAsync_loop, Initialize_m_FileName, h1, Bool.false_eq_true, if_false,
        ih, List.filter_cons, hk, if_true, List.map_cons, List.append_assoc,
        List.singleton_append]

theorem occursIn_nil (l : List Char) : occursIn [] l = true := by
  cases l <;> simp [occursIn]

theorem M2FindSubString_empty (cm : Char → Char) (name : String) :
    M2FindSubString cm name "" true = true := by
  simp [M2FindSubString, foldCase, occursIn_nil]

theorem keeps_eq (cm : Char → Char) (f : String) (e : String × TaskConfig) :
    keeps cm (!f.isEmpty) f e = M2FindSubString cm e.2.FileName f true := by
  by_cases h : f.isEmpty = true
  · have hf : f = "" := (String.isEmpty_iff f).mp h
    subst hf
    simp [keeps, M2FindSubString_empty]
  · simp [keeps, h]

theorem GetTasksAsync_container (m : TransferManager) (env : ListEnv) :
    (GetTasksAsync m env).1.m_TasksContainer =
      (UpdateTransferTaskStatusWithoutLock_loop false env.engine m.m_TaskList
        m.m_TasksContainer m.m_TotalDownloadBandwidth).2.1 := by
  simp [GetTasksAsync, UpdateTransferTaskStatusWithoutLock, touch, AutoCriticalSectionLock,
    AutoCriticalSectionUnlock]

theorem GetTasksAsync_view (m : TransferManager) (env : ListEnv) :
    (GetTasksAsync m env).2 =
      ((GetTasksAsync m env).1.m_TasksContainer.filter
        (fun e => M2FindSubString env.CaseMap e.2.FileName m.m_SearchFilter true)).map
        (fun e => some (TransferTask.Initialize e.1 e.2 env.GetFolderAsync
          (env.GetCurrentDownloadsAsync.foldl DownloadsList_insert []))) := by
  rw [GetTasksAsync_container]
  simp only [GetTasksAsync, UpdateTransferTaskStatusWithoutLock, touch,
    AutoCriticalSectionLock, AutoCriticalSectionUnlock, SearchFilter, if_true,
    Bool.false_eq_true, if_false, GetTasksAsync_loop_eq, List.nil_append]
  congr 1
  apply List.filter_congr
  intro e _
  exact keeps_eq _ _ e

theorem GetTasksAsync_taskList (m : TransferManager) (env : ListEnv) :
    (GetTasksAsync m env).1.m_TaskList = (GetTasksAsync m env).2 := by
  simp [GetTasksAsync, AutoCriticalSectionUnlock]

theorem view_ids (cm : Char → Char) (c : PropertySet TaskConfig) (f : String)
    (g : String → Option String) (dl : PropertySet DownloadOperation) :
    ((c.filter (fun e => M2FindSubString cm e.2.FileName f true)).map
      (fun e => some (TransferTask.Initialize e.1 e.2 g dl))).map
        (Option.map TransferTask.m_Guid) =
      (((fileNames c).filter (fun x => M2FindSubString cm x.2 f true)).map Prod.fst).map some := by
  induction c with
  | nil => simp [fileNames]
  | cons e rest ih =>
    simp only [fileNames] at ih
    by_cases h : M2FindSubString cm e.2.FileName f true = true
    · simp only [List.filter_cons, h, if_true, List.map_cons, fileNames, ih,
        Initialize_m_Guid, Option.map_some']
    · simp only [List.filter_cons, h, if_false, List.map_cons, fileNames, ih,
        Bool.false_eq_true]

theorem mem_matching_keys (cm : Char → Char) (c : PropertySet TaskConfig) (f : String)
    (k : String) :
    k ∈ ((fileNames c).filter (fun x => M2FindSubString cm x.2 f true)).map Prod.fst ↔
      ∃ r, (k, r) ∈ c ∧ M2FindSubString cm r.FileName f true = true := by
  simp only [fileNames, List.mem_map, List.mem_filter]
  constructor
  · rintro ⟨x, ⟨⟨e, he, rfl⟩, hp⟩, rfl⟩
    exact ⟨e.2, he, hp⟩
  · rintro ⟨r, hr, hp⟩
    exact ⟨(k, r.FileName), ⟨⟨(k, r), hr, rfl⟩, hp⟩, rfl⟩

theorem matching_keys_nodup (cm : Char → Char) (c : PropertySet TaskConfig) (f : String)
    (h : (keys c).Nodup) :
    (((fileNames c).filter (fun x => M2FindSubString cm x.2 f true)).map Prod.fst).Nodup := by
  have hs : List.Sublist
      (((fileNames c).filter (fun x => M2FindSubString cm x.2 f true)).map Prod.fst)
      ((fileNames c).map Prod.fst) := (List.filter_sublist _).map _
  have hk : (fileNames c).map Prod.fst = keys c := by
    simp [fileNames, keys]
  rw [hk] at hs
  exact hs.nodup h

theorem handlesWithId_eq (k : String) (view : List (Option TransferTask)) :
    handlesWithId k view =
      ((view.map (Option.map TransferTask.m_Guid)).filter
        (fun x => decide (x = some k))).length := by
  unfold handlesWithId
  rw [List.filter_map, List.length_map]
  rfl

theorem length_filter_eq_of_not_mem {α : Type} [DecidableEq α] (L : List α) (a : α)
    (h : a ∉ L) : (L.filter (fun x => decide (x = a))).length = 0 := by
  rw [List.length_eq_zero, List.filter_eq_nil_iff]
  intro x hx
  simp only [decide_eq_true_eq]
  intro hxa
  exact h (hxa ▸ hx)

theorem length_filter_eq_of_mem {α : Type} [DecidableEq α] (L : List α) (a : α)
    (hnd : L.Nodup) (h : a ∈ L) : (L.filter (fun x => decide (x = a))).length = 1 := by
  induction L with
  | nil => simp at h
  | cons b rest ih =>
    rw [List.nodup_cons] at hnd
    by_cases hb : b = a
    · subst hb
      rw [List.filter_cons, if_pos (by simp), List.length_cons,
        length_filter_eq_of_not_mem rest b hnd.1]
    · have hr : a ∈ rest := by
        rcases List.mem_cons.mp h with h1 | h1
        · exact absurd h1.symm hb
        · exact h1
      rw [List.filter_cons, if_neg (by simpa using hb), ih hnd.2 hr]

/-! ## Listing and the search filter -/

theorem handles_exact (cm : Char → Char) (c : PropertySet TaskConfig) (f : String)
    (view : List (Option TransferTask)) (hnd : (keys c).Nodup)
    (hview : view.map (Option.map TransferTask.m_Guid) =
      (((fileNames c).filter (fun x => M2FindSubString cm x.2 f true)).map Prod.fst).map some) :
    (∀ k r, Lookup c k = some r → M2FindSubString cm r.FileName f true = true →
      handlesWithId k view = 1) ∧
    (∀ k, (∀ r, Lookup c k = some r → M2FindSubString cm r.FileName f true = false) →
      handlesWithId k view = 0) := by
  have hn : ((((fileNames c).filter
      (fun x => M2FindSubString cm x.2 f true)).map Prod.fst).map some).Nodup :=
    (matching_keys_nodup cm _ f hnd).map (Option.some_injective _)
  constructor
  · intro k r hr hp
    rw [handlesWithId_eq, hview]
    apply length_filter_eq_of_mem _ _ hn
    exact List.mem_map.mpr ⟨k, (mem_matching_keys cm _ f k).mpr
      ⟨r, mem_of_Lookup_eq_some _ hr, hp⟩, rfl⟩
  · intro k hk
    rw [handlesWithId_eq, hview]
    apply length_filter_eq_of_not_mem
    intro hmem
    obtain ⟨k1, hk1, hk1eq⟩ := List.mem_map.mp hmem
    cases hk1eq
    obtain ⟨r, hr, hp⟩ := (mem_matching_keys cm _ f k).mp hk1
    have := hk r (Lookup_eq_some_of_mem _ hnd hr)
    rw [hp] at this
    exact Bool.noConfusion this

/-- In a reconciled state, the view of `listTasks m f` has no null slot and holds exactly
one handle for each record stored before the call whose file name contains `f`, and no
handle for any other id; with the empty filter every stored record has one handle. -/
theorem listTasks_of_reconciled (m : TransferManager) (f : String) (env : ListEnv)
    (h : Reconciled m) :
    (∀ slot ∈ (listTasks m f env).2, slot ≠ none) ∧
    (∀ k r, Lookup m.m_TasksContainer k = some r →
      M2FindSubString env.CaseMap r.FileName f true = true →
      handlesWithId k (listTasks m f env).2 = 1) ∧
    (∀ k, (∀ r, Lookup m.m_TasksContainer k = some r →
        M2FindSubString env.CaseMap r.FileName f true = false) →
      handlesWithId k (listTasks m f env).2 = 0) ∧
    (f = "" → ∀ k, k ∈ keys m.m_TasksContainer →
      handlesWithId k (listTasks m f env).2 = 1) := by
  obtain ⟨hkeys, hcoll⟩ := h
  have hpre : (listTasks m f env).2.map (Option.map TransferTask.m_Guid) =
      (((fileNames m.m_TasksContainer).filter
        (fun x => M2FindSubString env.CaseMap x.2 f true)).map Prod.fst).map some := by
    unfold listTasks
    rw [GetTasksAsync_view, view_ids, GetTasksAsync_container]
    have hfn := flush_fileNames false env.engine (m.put_SearchFilter f).m_TaskList
      (m.put_SearchFilter f).m_TasksContainer
      (m.put_SearchFilter f).m_TotalDownloadBandwidth hcoll
    rw [hfn]
    rfl
  obtain ⟨h1, h0⟩ := handles_exact env.CaseMap _ f _ hkeys hpre
  refine ⟨?_, h1, h0, ?_⟩
  · intro slot hslot
    unfold listTasks at hslot
    rw [GetTasksAsync_view] at hslot
    obtain ⟨e, _, he⟩ := List.mem_map.mp hslot
    rw [← he]
    exact Option.some_ne_none _
  · intro hf k hk
    cases hr : Lookup m.m_TasksContainer k with
    | none => exact absurd hk ((Lookup_eq_none_iff _ k).mp hr)
    | some r => exact h1 k r hr (by rw [hf]; exact M2FindSubString_empty _ _)

/-- Whatever the collection held, the view of `listTasks m f` holds exactly one handle for
each record that the Tasks store holds once the status flush at the start of the call has
run and whose file name contains `f`, and no handle for any other id. -/
theorem listTasks_of_flushed_store (m : TransferManager) (f : String) (env : ListEnv)
    (hkeys : (keys m.m_TasksContainer).Nodup) :
    (∀ k r, Lookup (listTasks m f env).1.m_TasksContainer k = some r →
      M2FindSubString env.CaseMap r.FileName f true = true →
      handlesWithId k (listTasks m f env).2 = 1) ∧
    (∀ k, (∀ r, Lookup (listTasks m f env).1.m_TasksContainer k = some r →
        M2FindSubString env.CaseMap r.FileName f true = false) →
      handlesWithId k (listTasks m f env).2 = 0) := by
  have hpost : (listTasks m f env).2.map (Option.map TransferTask.m_Guid) =
      (((fileNames (listTasks m f env).1.m_TasksContainer).filter
        (fun x => M2FindSubString env.CaseMap x.2 f true)).map Prod.fst).map some := by
    unfold listTasks
    rw [GetTasksAsync_view, view_ids]
    rfl
  have hnd : (keys (listTasks m f env).1.m_TasksContainer).Nodup := by
    unfold listTasks
    rw [GetTasksAsync_container]
    exact flush_keys_nodup _ _ _ _ _ hkeys
  exact handles_exact env.CaseMap _ f _ hnd hpost

/-! ## Listing and the durable store -/

/-- C8 (as stated, refuted): the store holds the record of `g1` with status Queued and the
collection holds the handle of `g1` whose status is now Running; `GetTasksAsync` rewrites
the record under `g1`, so the store after the call differs from the store before it. -/
theorem GetTasksAsync_rewrites_record :
    (GetTasksAsync (sampleManager [some (sampleTask "g1" "a.bin" .Running)]
        [("g1", (sampleTask "g1" "a.bin" .Queued).GetTaskConfig)])
      sampleListEnv).1.m_TasksContainer =
      [("g1", (sampleTask "g1" "a.bin" .Running).GetTaskConfig)] ∧
    (GetTasksAsync (sampleManager [some (sampleTask "g1" "a.bin" .Running)]
        [("g1", (sampleTask "g1" "a.bin" .Queued).GetTaskConfig)])
      sampleListEnv).1.m_TasksContainer ≠
      (sampleManager [some (sampleTask "g1" "a.bin" .Running)]
        [("g1", (sampleTask "g1" "a.bin" .Queued).GetTaskConfig)]).m_TasksContainer := by
  decide

/-- C8 (amended): the only write `GetTasksAsync` makes to the Tasks store is the status
flush of the collection it held before the call. A key that is the id of no
non-tombstoned handle keeps its record (or stays absent); a key that is the id of such a
handle holds the current record of a handle with that id; the keys afterwards are the
keys before plus those ids; and with no non-tombstoned handle the store is unchanged.
`StartAllTasks`, `PauseAllTasks` and `ClearTaskList` themselves write no record. -/
theorem GetTasksAsync_store_frame (m : TransferManager) (env : ListEnv) :
    (∀ k, (∀ T, some T ∈ m.m_TaskList → T.m_Guid ≠ k) →
      Lookup (GetTasksAsync m env).1.m_TasksContainer k = Lookup m.m_TasksContainer k) ∧
    (∀ k, (∃ T, some T ∈ m.m_TaskList ∧ T.m_Guid = k) →
      ∃ T1, some T1 ∈ m.m_TaskList ∧ T1.m_Guid = k ∧
        Lookup (GetTasksAsync m env).1.m_TasksContainer k = some T1.GetTaskConfig) ∧
    (∀ k, k ∈ keys (GetTasksAsync m env).1.m_TasksContainer ↔
      k ∈ keys m.m_TasksContainer ∨ ∃ T, some T ∈ m.m_TaskList ∧ T.m_Guid = k) ∧
    ((∀ slot ∈ m.m_TaskList, slot = none) →
      (GetTasksAsync m env).1.m_TasksContainer = m.m_TasksContainer) ∧
    (∀ cmd, (StartAllTasks m cmd).1.m_TasksContainer = m.m_TasksContainer) ∧
    (∀ cmd, (PauseAllTasks m cmd).1.m_TasksContainer = m.m_TasksContainer) ∧
    (ClearTaskList m).1.m_TasksContainer = m.m_TasksContainer := by
  rw [GetTasksAsync_container]
  refine ⟨?_, ?_, ?_, ?_, ?_, ?_, ?_⟩
  · exact fun k hk => flush_Lookup_of_not_mem _ _ _ _ _ k hk
  · exact fun k hk => flush_Lookup_mem _ _ _ _ k hk
  · exact fun k => flush_mem_keys _ _ _ _ _ k
  · exact fun h => flush_all_none _ _ _ _ _ h
  · intro cmd
    simp [StartAllTasks, touch, AutoCriticalSectionLock, AutoCriticalSectionUnlock]
  · intro cmd
    simp [PauseAllTasks, touch, AutoCriticalSectionLock, AutoCriticalSectionUnlock]
  · simp [ClearTaskList, touch, AutoCriticalSectionLock, AutoCriticalSectionUnlock]

/-! ## Removal -/

theorem catchAll_eq (body : Except Fault Unit) : catchAll body = .ok () := by
  cases body <;> rfl

theorem RemoveTaskAsync_some (m : TransferManager) (T : TransferTask)
    (DeleteAsync : Except Fault Unit) :
    RemoveTaskAsync m (some T) DeleteAsync =
      ({ m with
          m_TaskList := RemoveTaskAsync_loop T.m_Guid m.m_TaskList
          m_TasksContainer := PropertySet.Remove m.m_TasksContainer T.m_Guid
          m_TaskListUpdateCS := false }, .ok ()) := by
  have hg : (if (!NAIsFinalTransferTaskStatus T.m_Status) = true then T.Cancel else T).m_Guid =
      T.m_Guid := by
    split <;> rfl
  have hd : ∀ X : TransferTask, (if TransferTaskStatus.Completed ≠ X.m_Status then
        catchAll (RemoveTaskAsync_try X DeleteAsync)
      else (.ok () : Except Fault Unit)) = .ok () := by
    intro X
    by_cases hc : TransferTaskStatus.Completed ≠ X.m_Status
    · rw [if_pos hc]
      exact catchAll_eq _
    · rw [if_neg hc]
  simp only [RemoveTaskAsync, hd, hg, touch, AutoCriticalSectionLock,
    AutoCriticalSectionUnlock, if_true]

theorem RemoveTaskAsync_loop_eq_map (g : String) (l : List (Option TransferTask)) :
    RemoveTaskAsync_loop g l =
      l.map (fun slot => slot.bind (fun T => if g = T.m_Guid then none else some T)) := by
  induction l with
  | nil => rfl
  | cons slot rest ih =>
    cases slot with
    | none => simp [RemoveTaskAsync_loop, ih]
    | some T =>
      simp only [RemoveTaskAsync_loop]
      rw [ih]
      by_cases h : g = T.m_Guid <;> simp [h]

theorem mem_RemoveTaskAsync_loop (g : String) (l : List (Option TransferTask))
    (T : TransferTask) :
    some T ∈ RemoveTaskAsync_loop g l ↔ some T ∈ l ∧ T.m_Guid ≠ g := by
  induction l with
  | nil => simp [RemoveTaskAsync_loop]
  | cons slot rest ih =>
    cases slot with
    | none => simp [RemoveTaskAsync_loop, ih]
    | some T0 =>
      by_cases h : g = T0.m_Guid
      · simp only [RemoveTaskAsync_loop, if_pos h, List.mem_cons, ih, Option.some.injEq,
          false_or, reduceCtorEq]
        constructor
        · rintro ⟨h1, h2⟩
          exact ⟨Or.inr h1, h2⟩
        · rintro ⟨h1 | h1, h2⟩
          · exact absurd (by rw [h1, h]) h2
          · exact ⟨h1, h2⟩
      · simp only [RemoveTaskAsync_loop, if_neg h, List.mem_cons, ih, Option.some.injEq]
        constructor
        · rintro (h1 | ⟨h1, h2⟩)
          · exact ⟨Or.inl h1, by rw [h1]; exact fun h' => h h'.symm⟩
          · exact ⟨Or.inr h1, h2⟩
        · rintro ⟨h1 | h1, h2⟩
          · exact Or.inl h1
          · exact Or.inr ⟨h1, h2⟩

theorem RemoveTaskAsync_loop_idem (g : String) (l : List (Option TransferTask)) :
    RemoveTaskAsync_loop g (RemoveTaskAsync_loop g l) = RemoveTaskAsync_loop g l := by
  induction l with
  | nil => rfl
  | cons slot rest ih =>
    cases slot with
    | none => simp [RemoveTaskAsync_loop, ih]
    | some T =>
      by_cases h : g = T.m_Guid
      · simp only [RemoveTaskAsync_loop, if_pos h]
        rw [ih]
      · simp only [RemoveTaskAsync_loop, if_neg h]
        rw [ih]

theorem Remove_idem {V : Type} (s : PropertySet V) (k : String) :
    PropertySet.Remove (PropertySet.Remove s k) k = PropertySet.Remove s k := by
  apply Remove_of_not_mem
  rw [mem_keys_Remove]
  simp

/-- C4: for every task handle `T` and every outcome of deleting its destination file,
`RemoveTaskAsync` completes normally; afterwards the Tasks store has no record under the
id of `T`, the collection has its former length, every slot that held a handle with that
id is null, every other slot is unchanged, and every record under another key is
unchanged. -/
theorem RemoveTaskAsync_removes (m : TransferManager) (T : TransferTask)
    (DeleteAsync : Except Fault Unit) :
    (RemoveTaskAsync m (some T) DeleteAsync).2 = .ok () ∧
    Lookup (RemoveTaskAsync m (some T) DeleteAsync).1.m_TasksContainer T.m_Guid = none ∧
    T.m_Guid ∉ keys (RemoveTaskAsync m (some T) DeleteAsync).1.m_TasksContainer ∧
    (RemoveTaskAsync m (some T) DeleteAsync).1.m_TaskList.length = m.m_TaskList.length ∧
    (∀ (i : Nat) (T1 : TransferTask), m.m_TaskList[i]? = some (some T1) →
      T1.m_Guid = T.m_Guid →
      (RemoveTaskAsync m (some T) DeleteAsync).1.m_TaskList[i]? = some none) ∧
    (∀ (i : Nat) (slot : Option TransferTask), m.m_TaskList[i]? = some slot →
      (∀ T1 : TransferTask, slot = some T1 → T1.m_Guid ≠ T.m_Guid) →
      (RemoveTaskAsync m (some T) DeleteAsync).1.m_TaskList[i]? = some slot) ∧
    (∀ k, k ≠ T.m_Guid →
      Lookup (RemoveTaskAsync m (some T) DeleteAsync).1.m_TasksContainer k =
        Lookup m.m_TasksContainer k) := by
  rw [RemoveTaskAsync_some]
  refine ⟨rfl, Lookup_Remove_self _ _, ?_, ?_, ?_, ?_, ?_⟩
  · exact (Lookup_eq_none_iff _ _).mp (Lookup_Remove_self _ _)
  · simp [RemoveTaskAsync_loop_eq_map]
  · intro i T1 hi hg
    simp [RemoveTaskAsync_loop_eq_map, hi, hg]
  · intro i slot hi hne
    cases slot with
    | none => simp [RemoveTaskAsync_loop_eq_map, hi]
    | some T1 =>
      have h1 : ¬ T.m_Guid = T1.m_Guid := fun h => hne T1 rfl h.symm
      simp [RemoveTaskAsync_loop_eq_map, hi, h1]
  · intro k hk
    exact Lookup_Remove_of_ne _ hk

/-- C5: after a first `RemoveTaskAsync` of a handle, a second `RemoveTaskAsync` of a handle
with the same id (the same handle, whatever its status has become) completes normally and
leaves the Tasks store and the collection exactly as the first call left them, whatever
the outcome of the file deletions. -/
theorem RemoveTaskAsync_idempotent (m : TransferManager) (T T1 : TransferTask)
    (d d1 : Except Fault Unit) (h : T1.m_Guid = T.m_Guid) :
    (RemoveTaskAsync (RemoveTaskAsync m (some T) d).1 (some T1) d1).2 = .ok () ∧
    (RemoveTaskAsync (RemoveTaskAsync m (some T) d).1 (some T1) d1).1.m_TasksContainer =
      (RemoveTaskAsync m (some T) d).1.m_TasksContainer ∧
    (RemoveTaskAsync (RemoveTaskAsync m (some T) d).1 (some T1) d1).1.m_TaskList =
      (RemoveTaskAsync m (some T) d).1.m_TaskList := by
  rw [RemoveTaskAsync_some, RemoveTaskAsync_some, h]
  exact ⟨rfl, Remove_idem _ _, RemoveTaskAsync_loop_idem _ _⟩

/-- C5 (witness): the handle of `g1` is removed twice from a
registry holding `g1` and `g2`; the first file deletion fails, and the second call sees
the handle with the status Canceled. -/
theorem RemoveTaskAsync_idempotent_witness :
    (sampleTask "g1" "a.bin" .Canceled).m_Guid = (sampleTask "g1" "a.bin" .Running).m_Guid ∧
    (RemoveTaskAsync (RemoveTaskAsync
        (sampleManager [some (sampleTask "g1" "a.bin" .Running),
            some (sampleTask "g2" "b.bin" .Paused)]
          [("g1", (sampleTask "g1" "a.bin" .Running).GetTaskConfig),
           ("g2", (sampleTask "g2" "b.bin" .Paused).GetTaskConfig)])
        (some (sampleTask "g1" "a.bin" .Running)) (.error (.hresult_error 5))).1
      (some (sampleTask "g1" "a.bin" .Canceled)) (.error (.hresult_error 2))).2 = .ok () ∧
    (RemoveTaskAsync (RemoveTaskAsync
        (sampleManager [some (sampleTask "g1" "a.bin" .Running),
            some (sampleTask "g2" "b.bin" .Paused)]
          [("g1", (sampleTask "g1" "a.bin" .Running).GetTaskConfig),
           ("g2", (sampleTask "g2" "b.bin" .Paused).GetTaskConfig)])
        (some (sampleTask "g1" "a.bin" .Running)) (.error (.hresult_error 5))).1
      (some (sampleTask "g1" "a.bin" .Canceled)) (.error (.hresult_error 2))).1.m_TasksContainer =
      [("g2", (sampleTask "g2" "b.bin" .Paused).GetTaskConfig)] ∧
    (RemoveTaskAsync (RemoveTaskAsync
        (sampleManager [some (sampleTask "g1" "a.bin" .Running),
            some (sampleTask "g2" "b.bin" .Paused)]
          [("g1", (sampleTask "g1" "a.bin" .Running).GetTaskConfig),
           ("g2", (sampleTask "g2" "b.bin" .Paused).GetTaskConfig)])
        (some (sampleTask "g1" "a.bin" .Running)) (.error (.hresult_error 5))).1
      (some (sampleTask "g1" "a.bin" .Canceled)) (.error (.hresult_error 2))).1.m_TaskList =
      [none, some (sampleTask "g2" "b.bin" .Paused)] := by
  have h := RemoveTaskAsync_idempotent
    (sampleManager [some (sampleTask "g1" "a.bin" .Running),
        some (sampleTask "g2" "b.bin" .Paused)]
      [("g1", (sampleTask "g1" "a.bin" .Running).GetTaskConfig),
       ("g2", (sampleTask "g2" "b.bin" .Paused).GetTaskConfig)])
    (sampleTask "g1" "a.bin" .Running) (sampleTask "g1" "a.bin" .Canceled)
    (.error (.hresult_error 5)) (.error (.hresult_error 2)) rfl
  refine ⟨rfl, h.1, ?_, ?_⟩
  · rw [h.2.1]
    decide
  · rw [h.2.2]
    decide

/-! ## Adding a task -/

/-- C6 (as stated, refuted): the file is created, then the engine refuses the download;
`AddTaskAsync` fails, yet the root container now holds `LastusedFolder`, which it did not
hold before the call. -/
theorem AddTaskAsync_failure_writes_LastusedFolder :
    (AddTaskAsync (sampleManager [] []) "http://x/file.bin" "file.bin" "F"
      sampleAddEnvRefused).2 = .error (.hresult_error 7) ∧
    (sampleManager [] []).m_RootContainer = [] ∧
    (AddTaskAsync (sampleManager [] []) "http://x/file.bin" "file.bin" "F"
      sampleAddEnvRefused).1.m_RootContainer = [("LastusedFolder", "token-F")] :=
  ⟨rfl, rfl, by decide⟩

/-- C6 (amended): when `AddTaskAsync` fails because creating the file fails, the whole
manager state (collection, Tasks container, root container) is what it was. When it fails
because creating the download fails, the collection and the Tasks container are what they
were, so no record has been persisted, and the root container is what it was except that
`LastusedFolder` now holds the access token of the save folder (any other key,
`DefaultFolder` included, is unchanged). -/
theorem AddTaskAsync_failure (m : TransferManager)
    (SourceUri DesiredFileName SaveFolder : String) (env : AddEnv) :
    (∀ e, env.CreateFileAsync SaveFolder DesiredFileName = .error e →
      AddTaskAsync m SourceUri DesiredFileName SaveFolder env = (m, .error e)) ∧
    (∀ file e, env.CreateFileAsync SaveFolder DesiredFileName = .ok file →
      env.CreateDownload SourceUri file = .error e →
      (AddTaskAsync m SourceUri DesiredFileName SaveFolder env).2 = .error e ∧
      (AddTaskAsync m SourceUri DesiredFileName SaveFolder env).1.m_TaskList = m.m_TaskList ∧
      (AddTaskAsync m SourceUri DesiredFileName SaveFolder env).1.m_TasksContainer =
        m.m_TasksContainer ∧
      (AddTaskAsync m SourceUri DesiredFileName SaveFolder env).1.m_RootContainer =
        PropertySet.Insert m.m_RootContainer "LastusedFolder"
          (env.FutureAccessList_Add SaveFolder) ∧
      Lookup (AddTaskAsync m SourceUri DesiredFileName SaveFolder env).1.m_RootContainer
        "LastusedFolder" = some (env.FutureAccessList_Add SaveFolder) ∧
      (∀ k, k ≠ "LastusedFolder" →
        Lookup (AddTaskAsync m SourceUri DesiredFileName SaveFolder env).1.m_RootContainer k =
          Lookup m.m_RootContainer k)) := by
  refine ⟨?_, ?_⟩
  · intro e hf
    simp only [AddTaskAsync, hf]
  · intro file e hf hd
    have hroot : (AddTaskAsync m SourceUri DesiredFileName SaveFolder env).1.m_RootContainer =
        PropertySet.Insert m.m_RootContainer "LastusedFolder"
          (env.FutureAccessList_Add SaveFolder) := by
      simp only [AddTaskAsync, hf, hd]
    refine ⟨?_, ?_, ?_, hroot, ?_, ?_⟩
    · simp only [AddTaskAsync, hf, hd]
    · simp only [AddTaskAsync, hf, hd, touch_m_TaskList]
    · simp only [AddTaskAsync, hf, hd, touch_m_TasksContainer]
    · rw [hroot]
      exact Lookup_Insert_self _ _ _
    · intro k hk
      rw [hroot]
      exact Lookup_Insert_of_ne _ _ hk

theorem AddTaskAsync_ok (m : TransferManager) (SourceUri DesiredFileName SaveFolder : String)
    (env : AddEnv) (file : StorageFile) (op : DownloadOperation)
    (hf : env.CreateFileAsync SaveFolder DesiredFileName = .ok file)
    (hd : env.CreateDownload SourceUri file = .ok op) :
    (AddTaskAsync m SourceUri DesiredFileName SaveFolder env).2 = env.StartAsync op ∧
    (AddTaskAsync m SourceUri DesiredFileName SaveFolder env).1.m_TaskList = m.m_TaskList ∧
    (AddTaskAsync m SourceUri DesiredFileName SaveFolder env).1.m_TasksContainer =
      PropertySet.Insert m.m_TasksContainer env.M2CreateGuid
        { SourceUri := SourceUri
          FileName := file.Name
          SaveFolder := env.FutureAccessList_Add SaveFolder
          Status := .Queued
          BackgroundTransferGuid := op.Guid } := by
  simp only [AddTaskAsync, hf, hd, touch_m_TaskList, touch_m_TasksContainer, and_self]

/-- The record is stored before `StartAsync` is called: when that call fails,
`AddTaskAsync` fails and the Tasks store holds the new record all the same. -/
theorem AddTaskAsync_start_failure (m : TransferManager)
    (SourceUri DesiredFileName SaveFolder : String)
    (env : AddEnv) (file : StorageFile) (op : DownloadOperation) (e : Fault)
    (hf : env.CreateFileAsync SaveFolder DesiredFileName = .ok file)
    (hd : env.CreateDownload SourceUri file = .ok op)
    (hs : env.StartAsync op = .error e) :
    (AddTaskAsync m SourceUri DesiredFileName SaveFolder env).2 = .error e ∧
    PropertySet.Lookup (AddTaskAsync m SourceUri DesiredFileName SaveFolder env).1.m_TasksContainer
      env.M2CreateGuid =
      some { SourceUri := SourceUri
             FileName := file.Name
             SaveFolder := env.FutureAccessList_Add SaveFolder
             Status := .Queued
             BackgroundTransferGuid := op.Guid } := by
  obtain ⟨h1, _, h3⟩ := AddTaskAsync_ok m SourceUri DesiredFileName SaveFolder env file op hf hd
  rw [h1, h3, hs]
  exact ⟨rfl, PropertySet.Lookup_Insert_self _ _ _⟩

/-- C2: an `AddTaskAsync` that creates the file and the download, and whose new GUID is
not yet a key of the Tasks store, returns what its last statement `StartAsync` returns (so
it succeeds exactly when that call does) and adds exactly one pair to the store: under the
new GUID, the record with the given source URI, the name of the file actually created, the
status Queued and the GUID of the download the engine returned. A later `listTasks` with
the empty filter, run by any manager whose collection is empty and whose Tasks store is
that store, returns a handle with the new GUID as id, and every handle it returns under
that id has that file name, source URI and status, whatever live downloads are
enumerated. -/
theorem AddTaskAsync_round_trip (m : TransferManager)
    (SourceUri DesiredFileName SaveFolder : String)
    (env : AddEnv) (file : StorageFile) (op : DownloadOperation)
    (hf : env.CreateFileAsync SaveFolder DesiredFileName = .ok file)
    (hd : env.CreateDownload SourceUri file = .ok op)
    (hfresh : env.M2CreateGuid ∉ keys m.m_TasksContainer) :
    (AddTaskAsync m SourceUri DesiredFileName SaveFolder env).2 = env.StartAsync op ∧
    (AddTaskAsync m SourceUri DesiredFileName SaveFolder env).1.m_TasksContainer =
      m.m_TasksContainer ++
        [(env.M2CreateGuid,
          { SourceUri := SourceUri
            FileName := file.Name
            SaveFolder := env.FutureAccessList_Add SaveFolder
            Status := .Queued
            BackgroundTransferGuid := op.Guid })] ∧
    (∀ (m1 : TransferManager) (lenv : ListEnv), m1.m_TaskList = [] →
      m1.m_TasksContainer =
        (AddTaskAsync m SourceUri DesiredFileName SaveFolder env).1.m_TasksContainer →
      (∃ T, some T ∈ (listTasks m1 "" lenv).2 ∧ T.m_Guid = env.M2CreateGuid) ∧
      (∀ T, some T ∈ (listTasks m1 "" lenv).2 → T.m_Guid = env.M2CreateGuid →
        T.m_FileName = file.Name ∧ T.m_SourceUri = SourceUri ∧ T.m_Status = .Queued)) := by
  obtain ⟨hres, _, hstore⟩ :=
    AddTaskAsync_ok m SourceUri DesiredFileName SaveFolder env file op hf hd
  rw [Insert_of_not_mem _ _ hfresh] at hstore
  refine ⟨hres, hstore, ?_⟩
  intro m1 lenv hlist hc
  have hview : (listTasks m1 "" lenv).2 =
      (m.m_TasksContainer ++
        [(env.M2CreateGuid,
          ({ SourceUri := SourceUri
             FileName := file.Name
             SaveFolder := env.FutureAccessList_Add SaveFolder
             Status := .Queued
             BackgroundTransferGuid := op.Guid } : TaskConfig))]).map
        (fun e => some (TransferTask.Initialize e.1 e.2 lenv.GetFolderAsync
          (lenv.GetCurrentDownloadsAsync.foldl DownloadsList_insert []))) := by
    unfold listTasks
    rw [GetTasksAsync_view, GetTasksAsync_container]
    have h1 : (m1.put_SearchFilter "").m_TaskList = [] := hlist
    have h2 : (m1.put_SearchFilter "").m_TasksContainer = m1.m_TasksContainer := rfl
    rw [h1, h2, hc, hstore]
    simp only [UpdateTransferTaskStatusWithoutLock_loop]
    congr 1
    rw [List.filter_eq_self]
    intro e _
    exact M2FindSubString_empty _ _
  rw [hview]
  constructor
  · refine ⟨_, List.mem_map.mpr
      ⟨_, List.mem_append_right _ (List.mem_singleton_self _), rfl⟩, ?_⟩
    rfl
  · intro T hT hg
    obtain ⟨e, he, heq⟩ := List.mem_map.mp hT
    have hTe : T = TransferTask.Initialize e.1 e.2 lenv.GetFolderAsync
        (lenv.GetCurrentDownloadsAsync.foldl DownloadsList_insert []) :=
      (Option.some.inj heq).symm
    rcases List.mem_append.mp he with h1 | h1
    · exfalso
      apply hfresh
      have : e.1 = env.M2CreateGuid := by
        rw [← hg, hTe]
        rfl
      rw [← this]
      exact List.mem_map.mpr ⟨e, h1, rfl⟩
    · rw [List.mem_singleton] at h1
      rw [hTe, h1]
      exact ⟨rfl, rfl, rfl⟩

/-- C2 (witness): the task `http://x/file.bin` is added to a registry that already stores
`g1`; the file is created as `file (2).bin` and the call succeeds. -/
theorem AddTaskAsync_round_trip_witness :
    sampleAddEnv.M2CreateGuid ∉
      keys (sampleManager [] [("g1",
        (sampleTask "g1" "a.bin" .Paused).GetTaskConfig)]).m_TasksContainer ∧
    (AddTaskAsync (sampleManager [] [("g1", (sampleTask "g1" "a.bin" .Paused).GetTaskConfig)])
      "http://x/file.bin" "file.bin" "F" sampleAddEnv).2 = .ok () ∧
    (AddTaskAsync (sampleManager [] [("g1", (sampleTask "g1" "a.bin" .Paused).GetTaskConfig)])
      "http://x/file.bin" "file.bin" "F" sampleAddEnv).1.m_TasksContainer =
      [("g1", (sampleTask "g1" "a.bin" .Paused).GetTaskConfig),
       ("g9", { SourceUri := "http://x/file.bin"
                FileName := "file (2).bin"
                SaveFolder := "token-F"
                Status := .Queued
                BackgroundTransferGuid := "op-9" })] :=
  ⟨by decide,
   (AddTaskAsync_round_trip
      (sampleManager [] [("g1", (sampleTask "g1" "a.bin" .Paused).GetTaskConfig)])
      "http://x/file.bin" "file.bin" "F" sampleAddEnv { Name := "file (2).bin" }
      { Guid := "op-9" } rfl rfl (by decide)).1,
   (AddTaskAsync_round_trip
      (sampleManager [] [("g1", (sampleTask "g1" "a.bin" .Paused).GetTaskConfig)])
      "http://x/file.bin" "file.bin" "F" sampleAddEnv { Name := "file (2).bin" }
      { Guid := "op-9" } rfl rfl (by decide)).2.1⟩

/-! ## `StartAllTasks` and `PauseAllTasks` -/

theorem PauseAllTasks_loop_eq (cmd : TransferTask → Except Fault Unit)
    (l : List (Option TransferTask)) :
    PauseAllTasks_loop cmd l = StartAllTasks_loop cmd l := by
  induction l with
  | nil => rfl
  | cons slot rest ih =>
    cases slot with
    | none => simpa [PauseAllTasks_loop, StartAllTasks_loop] using ih
    | some T =>
      simp only [PauseAllTasks_loop, StartAllTasks_loop, ih]

theorem StartAllTasks_loop_all_ok (cmd : TransferTask → Except Fault Unit)
    (l : List (Option TransferTask)) (h : ∀ T, some T ∈ l → cmd T = .ok ()) :
    StartAllTasks_loop cmd l = (l.filterMap id, .ok ()) := by
  induction l with
  | nil => rfl
  | cons slot rest ih =>
    have hrest := ih (fun T hT => h T (List.mem_cons_of_mem _ hT))
    cases slot with
    | none => simpa [StartAllTasks_loop] using hrest
    | some T =>
      have hT : cmd T = .ok () := h T (List.mem_cons_self _ _)
      simp [StartAllTasks_loop, hT, hrest]

theorem StartAllTasks_loop_failure (cmd : TransferTask → Except Fault Unit)
    (l : List (Option TransferTask)) (pre post : List TransferTask) (T : TransferTask)
    (e : Fault) (hl : l.filterMap id = pre ++ T :: post)
    (hpre : ∀ T1 ∈ pre, cmd T1 = .ok ()) (hT : cmd T = .error e) :
    StartAllTasks_loop cmd l = (pre ++ [T], .error e) := by
  induction l generalizing pre with
  | nil => simp at hl
  | cons slot rest ih =>
    cases slot with
    | none =>
      have hl0 : rest.filterMap id = pre ++ T :: post := by
        simpa using hl
      simpa [StartAllTasks_loop] using ih pre hl0 hpre
    | some T0 =>
      have hl1 : T0 :: rest.filterMap id = pre ++ T :: post := by
        simpa using hl
      cases pre with
      | nil =>
        simp only [List.nil_append, List.cons.injEq] at hl1
        rw [hl1.1]
        simp [StartAllTasks_loop, hT]
      | cons T1 pre1 =>
        simp only [List.cons_append, List.cons.injEq] at hl1
        have h0 : cmd T0 = .ok () := by
          rw [hl1.1]
          exact hpre T1 (List.mem_cons_self _ _)
        have hr := ih pre1 hl1.2 (fun T2 hT2 => hpre T2 (List.mem_cons_of_mem _ hT2))
        simp only [StartAllTasks_loop, h0, hr]
        rw [hl1.1]
        rfl

theorem StartAllTasks_eq (m : TransferManager) (cmd : TransferTask → Except Fault Unit) :
    (StartAllTasks m cmd).2 = StartAllTasks_loop cmd m.m_TaskList := by
  simp [StartAllTasks, touch_m_TaskList, AutoCriticalSectionLock]

theorem PauseAllTasks_eq (m : TransferManager) (cmd : TransferTask → Except Fault Unit) :
    (PauseAllTasks m cmd).2 = StartAllTasks_loop cmd m.m_TaskList := by
  simp [PauseAllTasks, touch_m_TaskList, AutoCriticalSectionLock, PauseAllTasks_loop_eq]

/-- C7 (as stated, refuted): the collection holds the handles `g1` and `g2` around a null
slot, and the command fails on `g1`. `StartAllTasks` and `PauseAllTasks` call the command
on `g1` only, never on `g2`, and the failure leaves the call. -/
theorem bulk_command_stops_at_failure :
    (StartAllTasks (sampleManager [some (sampleTask "g1" "a.bin" .Paused), none,
        some (sampleTask "g2" "b.bin" .Paused)] []) sampleFailsOnG1).2 =
      ([sampleTask "g1" "a.bin" .Paused], .error (.hresult_error 1)) ∧
    (PauseAllTasks (sampleManager [some (sampleTask "g1" "a.bin" .Running), none,
        some (sampleTask "g2" "b.bin" .Running)] []) sampleFailsOnG1).2 =
      ([sampleTask "g1" "a.bin" .Running], .error (.hresult_error 1)) :=
  ⟨rfl, rfl⟩

/-- C7 (amended): `StartAllTasks` and `PauseAllTasks` call the command on the
non-tombstoned handles in collection order and leave the collection as it is. When the
command fails on no handle, it is called on every non-tombstoned handle and the call
returns normally. When it fails on a handle and on none before it, it is called on the
handles up to and including that one, and the failure leaves the call. -/
theorem bulk_command_until_failure (m : TransferManager)
    (cmd : TransferTask → Except Fault Unit) :
    ((∀ T, some T ∈ m.m_TaskList → cmd T = .ok ()) →
      (StartAllTasks m cmd).2 = (m.m_TaskList.filterMap id, .ok ()) ∧
      (PauseAllTasks m cmd).2 = (m.m_TaskList.filterMap id, .ok ())) ∧
    (∀ pre T post e, m.m_TaskList.filterMap id = pre ++ T :: post →
      (∀ T1 ∈ pre, cmd T1 = .ok ()) → cmd T = .error e →
      (StartAllTasks m cmd).2 = (pre ++ [T], .error e) ∧
      (PauseAllTasks m cmd).2 = (pre ++ [T], .error e)) ∧
    (StartAllTasks m cmd).1.m_TaskList = m.m_TaskList ∧
    (PauseAllTasks m cmd).1.m_TaskList = m.m_TaskList := by
  rw [StartAllTasks_eq, PauseAllTasks_eq]
  refine ⟨?_, ?_, ?_, ?_⟩
  · intro h
    exact ⟨StartAllTasks_loop_all_ok cmd _ h, StartAllTasks_loop_all_ok cmd _ h⟩
  · intro pre T post e hl hpre hT
    exact ⟨StartAllTasks_loop_failure cmd _ pre post T e hl hpre hT,
      StartAllTasks_loop_failure cmd _ pre post T e hl hpre hT⟩
  · simp [StartAllTasks, touch_m_TaskList, AutoCriticalSectionLock, AutoCriticalSectionUnlock]
  · simp [PauseAllTasks, touch_m_TaskList, AutoCriticalSectionLock, AutoCriticalSectionUnlock]

/-! ## `ClearTaskList` -/

theorem ClearTaskList_loop_without_null (l : List (Option TransferTask))
    (h : ∀ slot ∈ l, slot ≠ none) :
    ClearTaskList_loop l =
      ((l.filterMap id).filter (fun T => NAIsFinalTransferTaskStatus T.m_Status), .ok ()) := by
  induction l with
  | nil => rfl
  | cons slot rest ih =>
    have hrest := ih (fun s hs => h s (List.mem_cons_of_mem _ hs))
    cases slot with
    | none => exact absurd rfl (h none (List.mem_cons_self _ _))
    | some T =>
      by_cases hT : NAIsFinalTransferTaskStatus T.m_Status = true
      · simp [ClearTaskList_loop, hT, hrest]
      · simp [ClearTaskList_loop, hT, hrest]

/-- On a collection without a null slot, `ClearTaskList` starts `RemoveTaskAsync` for
exactly the handles whose status is Completed, Error or Canceled, in collection order. -/
theorem ClearTaskList_without_null (m : TransferManager)
    (h : ∀ slot ∈ m.m_TaskList, slot ≠ none) :
    (ClearTaskList m).2 =
      ((m.m_TaskList.filterMap id).filter
        (fun T => NAIsFinalTransferTaskStatus T.m_Status), .ok ()) := by
  simp only [ClearTaskList, touch_m_TaskList, AutoCriticalSectionLock]
  exact ClearTaskList_loop_without_null _ h

/-- C10 (the code at the failing input): the registry stores the completed tasks `g1` and
`g2`; after `listTasks` the collection holds both handles; `RemoveTaskAsync` of `g1` sets
its slot to null; `ClearTaskList` then faults on the null slot and starts no removal, not
even for the completed `g2`, whereas `StartAllTasks` skips the null slot. -/
theorem ClearTaskList_faults_on_null_slot :
    (RemoveTaskAsync
      (listTasks (sampleManager []
        [("g1", (sampleTask "g1" "a.bin" .Completed).GetTaskConfig),
         ("g2", (sampleTask "g2" "b.bin" .Completed).GetTaskConfig)]) "" sampleListEnv).1
      (some (sampleTask "g1" "a.bin" .Completed)) (.ok ())).1.m_TaskList =
      [none, some (TransferTask.Initialize "g2"
        (sampleTask "g2" "b.bin" .Completed).GetTaskConfig sampleListEnv.GetFolderAsync [])] ∧
    (ClearTaskList (RemoveTaskAsync
      (listTasks (sampleManager []
        [("g1", (sampleTask "g1" "a.bin" .Completed).GetTaskConfig),
         ("g2", (sampleTask "g2" "b.bin" .Completed).GetTaskConfig)]) "" sampleListEnv).1
      (some (sampleTask "g1" "a.bin" .Completed)) (.ok ())).1).2 =
      ([], .error .access_violation) ∧
    (StartAllTasks (RemoveTaskAsync
      (listTasks (sampleManager []
        [("g1", (sampleTask "g1" "a.bin" .Completed).GetTaskConfig),
         ("g2", (sampleTask "g2" "b.bin" .Completed).GetTaskConfig)]) "" sampleListEnv).1
      (some (sampleTask "g1" "a.bin" .Completed)) (.ok ())).1 (fun _ => .ok ())).2 =
      ([TransferTask.Initialize "g2"
        (sampleTask "g2" "b.bin" .Completed).GetTaskConfig sampleListEnv.GetFolderAsync []],
        .ok ()) :=
  ⟨by decide, rfl, rfl⟩

/-! ## The critical section -/

/-- Every operation that enters the critical section first leaves the record of unguarded
accesses as it was. -/
theorem guarded_operations (m : TransferManager) :
    (∀ env, (GetTasksAsync m env).1.m_Unguarded = m.m_Unguarded) ∧
    (∀ T d, (RemoveTaskAsync m T d).1.m_Unguarded = m.m_Unguarded) ∧
    (∀ cmd, (StartAllTasks m cmd).1.m_Unguarded = m.m_Unguarded) ∧
    (∀ cmd, (PauseAllTasks m cmd).1.m_Unguarded = m.m_Unguarded) ∧
    (ClearTaskList m).1.m_Unguarded = m.m_Unguarded ∧
    (∀ engine, (UINotifyTimerTick m engine).m_Unguarded = m.m_Unguarded) := by
  refine ⟨?_, ?_, ?_, ?_, ?_, ?_⟩
  · intro env
    simp [GetTasksAsync, UpdateTransferTaskStatusWithoutLock, touch, AutoCriticalSectionLock,
      AutoCriticalSectionUnlock]
  · intro T d
    cases T with
    | none => simp [RemoveTaskAsync, AutoCriticalSectionLock, AutoCriticalSectionUnlock]
    | some T => rw [RemoveTaskAsync_some]
  · intro cmd
    simp [StartAllTasks, touch, AutoCriticalSectionLock, AutoCriticalSectionUnlock]
  · intro cmd
    simp [PauseAllTasks, touch, AutoCriticalSectionLock, AutoCriticalSectionUnlock]
  · simp [ClearTaskList, touch, AutoCriticalSectionLock, AutoCriticalSectionUnlock]
  · intro engine
    simp [UINotifyTimerTick, UpdateTransferTaskStatusWithoutLock, touch,
      AutoCriticalSectionLock, AutoCriticalSectionUnlock]

/-- A successful `AddTaskAsync` that starts with the critical section free writes the root
container and the Tasks container without entering it. -/
theorem AddTaskAsync_unguarded (m : TransferManager) (SourceUri DesiredFileName SaveFolder : String)
    (env : AddEnv) (file : StorageFile) (op : DownloadOperation)
    (hcs : m.m_TaskListUpdateCS = false)
    (hf : env.CreateFileAsync SaveFolder DesiredFileName = .ok file)
    (hd : env.CreateDownload SourceUri file = .ok op) :
    (AddTaskAsync m SourceUri DesiredFileName SaveFolder env).1.m_Unguarded =
      m.m_Unguarded ++ [.RootContainer, .TasksContainer] := by
  simp [AddTaskAsync, hf, hd, touch, hcs]

/-- C9 (the code at the failing input): started with the critical section free,
`AddTaskAsync` writes `LastusedFolder` to the root container and the new record to the
Tasks container without ever entering the critical section, whereas `GetTasksAsync`,
`RemoveTaskAsync`, `StartAllTasks`, `PauseAllTasks` and `ClearTaskList` make no access
outside it. -/
theorem AddTaskAsync_skips_critical_section :
    (sampleManager [] []).m_TaskListUpdateCS = false ∧
    (AddTaskAsync (sampleManager [] []) "http://x/file.bin" "file.bin" "F"
      sampleAddEnv).1.m_Unguarded = [.RootContainer, .TasksContainer] ∧
    (AddTaskAsync (sampleManager [] []) "http://x/file.bin" "file.bin" "F"
      sampleAddEnv).1.m_RootContainer = [("LastusedFolder", "token-F")] ∧
    (PropertySet.keys (AddTaskAsync (sampleManager [] []) "http://x/file.bin" "file.bin" "F"
      sampleAddEnv).1.m_TasksContainer) = ["g9"] ∧
    (GetTasksAsync (sampleManager [] []) sampleListEnv).1.m_Unguarded = [] ∧
    (RemoveTaskAsync (sampleManager [] []) (some (sampleTask "g1" "a.bin" .Paused))
      (.ok ())).1.m_Unguarded = [] ∧
    (StartAllTasks (sampleManager [] []) (fun _ => .ok ())).1.m_Unguarded = [] ∧
    (PauseAllTasks (sampleManager [] []) (fun _ => .ok ())).1.m_Unguarded = [] ∧
    (ClearTaskList (sampleManager [] [])).1.m_Unguarded = [] := by
  decide

/-! ## Sequential runs: which records the store holds -/

theorem UINotifyTimerTick_container (m : TransferManager)
    (engine : TransferTask → TransferTaskStatus × Nat) :
    (UINotifyTimerTick m engine).m_TasksContainer =
      (UpdateTransferTaskStatusWithoutLock_loop true engine m.m_TaskList
        m.m_TasksContainer 0).2.1 := by
  simp [UINotifyTimerTick, UpdateTransferTaskStatusWithoutLock, touch,
    AutoCriticalSectionLock, AutoCriticalSectionUnlock]

theorem UINotifyTimerTick_taskList (m : TransferManager)
    (engine : TransferTask → TransferTaskStatus × Nat) :
    (UINotifyTimerTick m engine).m_TaskList =
      (UpdateTransferTaskStatusWithoutLock_loop true engine m.m_TaskList
        m.m_TasksContainer 0).1 := by
  simp [UINotifyTimerTick, UpdateTransferTaskStatusWithoutLock, touch,
    AutoCriticalSectionLock, AutoCriticalSectionUnlock]

theorem flush_mem_keys_of_consistent (n : Bool)
    (engine : TransferTask → TransferTaskStatus × Nat) (m : TransferManager) (t : Nat)
    (h : Consistent m) (k : String) :
    k ∈ keys (UpdateTransferTaskStatusWithoutLock_loop n engine m.m_TaskList
      m.m_TasksContainer t).2.1 ↔ k ∈ keys m.m_TasksContainer := by
  rw [flush_keys_eq n engine _ _ t h]

theorem RemoveTaskAsync_none (m : TransferManager) (d : Except Fault Unit) :
    (RemoveTaskAsync m none d).1.m_TaskList = m.m_TaskList ∧
    (RemoveTaskAsync m none d).1.m_TasksContainer = m.m_TasksContainer := by
  simp [RemoveTaskAsync, AutoCriticalSectionLock, AutoCriticalSectionUnlock]

theorem AddTaskAsync_taskList (m : TransferManager) (SourceUri DesiredFileName SaveFolder : String)
    (env : AddEnv) :
    (AddTaskAsync m SourceUri DesiredFileName SaveFolder env).1.m_TaskList = m.m_TaskList := by
  unfold AddTaskAsync
  split
  · rfl
  · split
    · simp only [touch_m_TaskList]
    · simp only [touch_m_TaskList]

theorem AddTaskAsync_mem_keys (m : TransferManager) (SourceUri DesiredFileName SaveFolder : String)
    (env : AddEnv) (k : String) :
    k ∈ keys (AddTaskAsync m SourceUri DesiredFileName SaveFolder env).1.m_TasksContainer ↔
      (Op.addTask SourceUri DesiredFileName SaveFolder env).adds k = true ∨
        k ∈ keys m.m_TasksContainer := by
  cases hf : env.CreateFileAsync SaveFolder DesiredFileName with
  | error e => simp [AddTaskAsync, Op.adds, hf]
  | ok file =>
    cases hd : env.CreateDownload SourceUri file with
    | error e => simp [AddTaskAsync, Op.adds, hf, hd, touch_m_TasksContainer]
    | ok op =>
      simp only [AddTaskAsync, Op.adds, hf, hd, touch_m_TasksContainer, mem_keys_Insert,
        decide_eq_true_eq]
      constructor
      · rintro (h | h)
        · exact Or.inl h.symm
        · exact Or.inr h
      · rintro (h | h)
        · exact Or.inl h.symm
        · exact Or.inr h

theorem step_mem_keys (m : TransferManager) (op : Op) (h : Consistent m) (k : String) :
    k ∈ keys (step m op).m_TasksContainer ↔
      op.adds k = true ∨ (op.removes k = false ∧ k ∈ keys m.m_TasksContainer) := by
  cases op with
  | addTask SourceUri DesiredFileName SaveFolder env =>
    simp only [step, AddTaskAsync_mem_keys, Op.removes, true_and]
  | removeTask Task d =>
    cases Task with
    | none => simp [step, (RemoveTaskAsync_none m d).2, Op.adds, Op.removes]
    | some T =>
      simp only [step, RemoveTaskAsync_some, mem_keys_Remove, Op.adds, Op.removes,
        Bool.false_eq_true, false_or, decide_eq_false_iff_not]
      constructor
      · rintro ⟨h1, h2⟩
        exact ⟨fun h3 => h2 h3.symm, h1⟩
      · rintro ⟨h1, h2⟩
        exact ⟨h2, fun h3 => h1 h3.symm⟩
  | listTasks f env =>
    have hc : Consistent (m.put_SearchFilter f) := h
    simp only [step, listTasks, GetTasksAsync_container, Op.adds, Op.removes,
      Bool.false_eq_true, false_or, true_and]
    exact flush_mem_keys_of_consistent false env.engine (m.put_SearchFilter f) _ hc k
  | tick engine =>
    simp only [step, UINotifyTimerTick_container, Op.adds, Op.removes,
      Bool.false_eq_true, false_or, true_and]
    exact flush_mem_keys_of_consistent true engine m 0 h k

theorem step_consistent (m : TransferManager) (op : Op) (h : Consistent m) :
    Consistent (step m op) := by
  intro T hT
  cases op with
  | addTask SourceUri DesiredFileName SaveFolder env =>
    simp only [step, AddTaskAsync_taskList] at hT
    simp only [step, AddTaskAsync_mem_keys]
    exact Or.inr (h T hT)
  | removeTask Task d =>
    cases Task with
    | none =>
      simp only [step, (RemoveTaskAsync_none m d).1] at hT
      simp only [step, (RemoveTaskAsync_none m d).2]
      exact h T hT
    | some T0 =>
      simp only [step, RemoveTaskAsync_some, mem_RemoveTaskAsync_loop] at hT
      simp only [step, RemoveTaskAsync_some, mem_keys_Remove]
      exact ⟨h T hT.1, hT.2⟩
  | listTasks f env =>
    simp only [step, listTasks, GetTasksAsync_taskList] at hT
    rw [GetTasksAsync_view] at hT
    obtain ⟨e, he, heq⟩ := List.mem_map.mp hT
    have hg : T.m_Guid = e.1 := by
      rw [← Option.some.inj heq]
      rfl
    simp only [step, listTasks]
    rw [hg]
    exact List.mem_map.mpr ⟨e, (List.mem_filter.mp he).1, rfl⟩
  | tick engine =>
    simp only [step, UINotifyTimerTick_taskList] at hT
    simp only [step, UINotifyTimerTick_container]
    rw [flush_mem_keys_of_consistent true engine m 0 h]
    have h1 : some T.m_Guid ∈ (UpdateTransferTaskStatusWithoutLock_loop true engine
        m.m_TaskList m.m_TasksContainer 0).1.map (Option.map TransferTask.m_Guid) :=
      List.mem_map.mpr ⟨some T, hT, rfl⟩
    rw [flush_list_guids] at h1
    obtain ⟨slot, hslot, hs⟩ := List.mem_map.mp h1
    cases slot with
    | none => simp at hs
    | some T0 =>
      simp only [Option.map_some', Option.some.injEq] at hs
      rw [← hs]
      exact h T0 hslot

theorem split_cons (k : String) (op : Op) (ops : List Op) :
    (∃ pre a post, op :: ops = pre ++ a :: post ∧ a.adds k = true ∧
        ∀ o ∈ post, o.removes k = false) ↔
      (op.adds k = true ∧ ∀ o ∈ ops, o.removes k = false) ∨
      (∃ pre a post, ops = pre ++ a :: post ∧ a.adds k = true ∧
        ∀ o ∈ post, o.removes k = false) := by
  constructor
  · rintro ⟨pre, a, post, heq, ha, hpost⟩
    cases pre with
    | nil =>
      simp only [List.nil_append, List.cons.injEq] at heq
      left
      rw [heq.1, heq.2]
      exact ⟨ha, hpost⟩
    | cons x pre1 =>
      simp only [List.cons_append, List.cons.injEq] at heq
      right
      exact ⟨pre1, a, post, heq.2, ha, hpost⟩
  · rintro (⟨ha, hops⟩ | ⟨pre, a, post, heq, ha, hpost⟩)
    · exact ⟨[], op, ops, rfl, ha, hops⟩
    · exact ⟨op :: pre, a, post, by rw [heq]; rfl, ha, hpost⟩

theorem run_tracks (m : TransferManager) (ops : List Op) (h : Consistent m) :
    (∀ k, k ∈ keys (run m ops).m_TasksContainer ↔
      (k ∈ keys m.m_TasksContainer ∧ ∀ o ∈ ops, o.removes k = false) ∨
      (∃ pre a post, ops = pre ++ a :: post ∧ a.adds k = true ∧
        ∀ o ∈ post, o.removes k = false)) ∧
    Consistent (run m ops) := by
  induction ops generalizing m with
  | nil =>
    refine ⟨fun k => ?_, h⟩
    simp [run]
  | cons op ops ih =>
    have hrun : run m (op :: ops) = run (step m op) ops := rfl
    obtain ⟨ih1, ih2⟩ := ih (step m op) (step_consistent m op h)
    rw [hrun]
    refine ⟨fun k => ?_, ih2⟩
    rw [ih1 k, step_mem_keys m op h k, split_cons k op ops]
    simp only [List.mem_cons, forall_eq_or_imp]
    tauto

/-- C3: starting from an empty collection, after any finite sequence of `addTask`,
`removeTask`, `listTasks` and UI-timer ticks executed one after another, the Tasks store
holds a record under `k` if and only if either `k` was a key initially and no `removeTask`
of the sequence removed `k`, or some `addTask` of the sequence stored a record under `k`
(its file and its download were created) and no later `removeTask` removed `k`. Moreover
every non-tombstoned handle of the collection has an id that is a key of the store, which
is why neither a tick nor the flush of `listTasks` re-inserts a removed record. -/
theorem store_holds_added_and_not_removed (m : TransferManager) (ops : List Op)
    (h0 : m.m_TaskList = []) :
    (∀ k, k ∈ keys (run m ops).m_TasksContainer ↔
      (k ∈ keys m.m_TasksContainer ∧ ∀ o ∈ ops, o.removes k = false) ∨
      (∃ pre a post, ops = pre ++ a :: post ∧ a.adds k = true ∧
        ∀ o ∈ post, o.removes k = false)) ∧
    Consistent (run m ops) := by
  apply run_tracks
  intro T hT
  rw [h0] at hT
  simp at hT

/-- C3 (witness): from the store holding `g1` and `g2`
and an empty collection, the sample run (which adds `g9` and removes `g1`) ends with the
records `g2` and `g9`. -/
theorem store_holds_added_and_not_removed_witness :
    (sampleManager [] [("g1", (sampleTask "g1" "a.bin" .Paused).GetTaskConfig),
      ("g2", (sampleTask "g2" "file-b.bin" .Running).GetTaskConfig)]).m_TaskList = [] ∧
    keys (run (sampleManager [] [("g1", (sampleTask "g1" "a.bin" .Paused).GetTaskConfig),
      ("g2", (sampleTask "g2" "file-b.bin" .Running).GetTaskConfig)])
      sampleOps).m_TasksContainer = ["g2", "g9"] ∧
    Consistent (run (sampleManager [] [("g1", (sampleTask "g1" "a.bin" .Paused).GetTaskConfig),
      ("g2", (sampleTask "g2" "file-b.bin" .Running).GetTaskConfig)]) sampleOps) :=
  ⟨rfl, by decide,
    (store_holds_added_and_not_removed
      (sampleManager [] [("g1", (sampleTask "g1" "a.bin" .Paused).GetTaskConfig),
        ("g2", (sampleTask "g2" "file-b.bin" .Running).GetTaskConfig)]) sampleOps rfl).2⟩

/-! ## Listing in the states the registry reaches -/

theorem HasKey_eq_false_iff {V : Type} (c : PropertySet V) (k : String) :
    PropertySet.HasKey c k = false ↔ k ∉ keys c := by
  simp only [PropertySet.HasKey, keys, List.any_eq_false, decide_eq_true_eq, List.mem_map,
    not_exists, not_and]

theorem nodup_keys_Remove {V : Type} (c : PropertySet V) (k : String)
    (h : (keys c).Nodup) : (keys (PropertySet.Remove c k)).Nodup := by
  have hs : List.Sublist (keys (PropertySet.Remove c k)) (keys c) :=
    (List.filter_sublist _).map _
  exact hs.nodup h

theorem Lookup_fileNames (c : PropertySet TaskConfig) (k : String) :
    Lookup (fileNames c) k = (Lookup c k).map TaskConfig.FileName := by
  induction c with
  | nil => rfl
  | cons e rest ih =>
    simp only [fileNames] at ih
    by_cases he : e.1 = k
    · simp only [fileNames, List.map_cons, Lookup, if_pos he, Option.map_some']
    · simp only [fileNames, List.map_cons, Lookup, if_neg he, ih]

theorem flush_list_names (n : Bool) (engine : TransferTask → TransferTaskStatus × Nat)
    (l : List (Option TransferTask)) (c : PropertySet TaskConfig) (t : Nat) :
    (UpdateTransferTaskStatusWithoutLock_loop n engine l c t).1.map
        (Option.map (fun T => (T.m_Guid, T.m_FileName))) =
      l.map (Option.map (fun T => (T.m_Guid, T.m_FileName))) := by
  induction l generalizing c t with
  | nil => simp [UpdateTransferTaskStatusWithoutLock_loop]
  | cons slot rest ih =>
    cases slot with
    | none => simp [UpdateTransferTaskStatusWithoutLock_loop, ih]
    | some T =>
      cases n <;>
        simp [UpdateTransferTaskStatusWithoutLock_loop, ih,
          TransferTask.UpdateChangedProperties]

theorem step_reconciled (m : TransferManager) (op : Op) (h : Reconciled m)
    (hf : op.fresh m = true) : Reconciled (step m op) := by
  obtain ⟨hnd, hcoll⟩ := h
  cases op with
  | addTask SourceUri DesiredFileName SaveFolder env =>
    have hg : env.M2CreateGuid ∉ keys m.m_TasksContainer := by
      apply (HasKey_eq_false_iff _ _).mp
      simpa [Op.fresh] using hf
    cases hc : env.CreateFileAsync SaveFolder DesiredFileName with
    | error e =>
      have hs : step m (.addTask SourceUri DesiredFileName SaveFolder env) = m := by
        simp only [step, AddTaskAsync, hc]
      rw [hs]
      exact ⟨hnd, hcoll⟩
    | ok file =>
      cases hd : env.CreateDownload SourceUri file with
      | error e =>
        have h1 : (step m (.addTask SourceUri DesiredFileName SaveFolder env)).m_TasksContainer =
            m.m_TasksContainer := by
          simp only [step, AddTaskAsync, hc, hd, touch_m_TasksContainer]
        have h2 : (step m (.addTask SourceUri DesiredFileName SaveFolder env)).m_TaskList =
            m.m_TaskList := by
          simp only [step, AddTaskAsync_taskList]
        unfold Reconciled
        rw [h1, h2]
        exact ⟨hnd, hcoll⟩
      | ok op =>
        obtain ⟨_, h2, h1⟩ :=
          AddTaskAsync_ok m SourceUri DesiredFileName SaveFolder env file op hc hd
        unfold Reconciled
        simp only [step]
        rw [h1, h2]
        refine ⟨nodup_keys_Insert _ _ _ hnd, ?_⟩
        intro T hT
        obtain ⟨r, hr, hrf⟩ := hcoll T hT
        have hne : T.m_Guid ≠ env.M2CreateGuid := by
          intro heq
          apply hg
          rw [← heq]
          by_contra hnot
          rw [(Lookup_eq_none_iff _ _).mpr hnot] at hr
          cases hr
        exact ⟨r, by rw [Lookup_Insert_of_ne _ _ hne]; exact hr, hrf⟩
  | removeTask Task d =>
    cases Task with
    | none =>
      unfold Reconciled
      simp only [step]
      rw [(RemoveTaskAsync_none m d).1, (RemoveTaskAsync_none m d).2]
      exact ⟨hnd, hcoll⟩
    | some T0 =>
      unfold Reconciled
      simp only [step, RemoveTaskAsync_some]
      refine ⟨nodup_keys_Remove _ _ hnd, ?_⟩
      intro T hT
      obtain ⟨hT1, hT2⟩ := (mem_RemoveTaskAsync_loop _ _ _).mp hT
      obtain ⟨r, hr, hrf⟩ := hcoll T hT1
      exact ⟨r, by rw [Lookup_Remove_of_ne _ hT2]; exact hr, hrf⟩
  | listTasks f env =>
    have hnd1 : (keys (GetTasksAsync (m.put_SearchFilter f) env).1.m_TasksContainer).Nodup := by
      rw [GetTasksAsync_container]
      exact flush_keys_nodup _ _ _ _ _ hnd
    unfold Reconciled
    simp only [step, listTasks]
    refine ⟨hnd1, ?_⟩
    intro T hT
    rw [GetTasksAsync_taskList, GetTasksAsync_view] at hT
    obtain ⟨e, he, heq⟩ := List.mem_map.mp hT
    have hTe : T = TransferTask.Initialize e.1 e.2 env.GetFolderAsync
        (env.GetCurrentDownloadsAsync.foldl DownloadsList_insert []) :=
      (Option.some.inj heq).symm
    refine ⟨e.2, ?_, ?_⟩
    · rw [hTe, Initialize_m_Guid]
      exact Lookup_eq_some_of_mem _ hnd1 (List.mem_filter.mp he).1
    · rw [hTe, Initialize_m_FileName]
  | tick engine =>
    unfold Reconciled
    simp only [step]
    rw [UINotifyTimerTick_container, UINotifyTimerTick_taskList]
    refine ⟨flush_keys_nodup _ _ _ _ _ hnd, ?_⟩
    intro T hT
    have h1 : some (T.m_Guid, T.m_FileName) ∈
        (UpdateTransferTaskStatusWithoutLock_loop true engine m.m_TaskList
          m.m_TasksContainer 0).1.map (Option.map (fun T => (T.m_Guid, T.m_FileName))) :=
      List.mem_map.mpr ⟨some T, hT, rfl⟩
    rw [flush_list_names] at h1
    obtain ⟨slot, hslot, hs⟩ := List.mem_map.mp h1
    cases slot with
    | none => simp at hs
    | some T0 =>
      simp only [Option.map_some', Option.some.injEq, Prod.mk.injEq] at hs
      obtain ⟨r, hr, hrf⟩ := hcoll T0 hslot
      have hfn := flush_fileNames true engine m.m_TaskList m.m_TasksContainer 0 hcoll
      have hl := Lookup_fileNames (UpdateTransferTaskStatusWithoutLock_loop true engine
        m.m_TaskList m.m_TasksContainer 0).2.1 T0.m_Guid
      rw [hfn, Lookup_fileNames, hr] at hl
      rw [← hs.1, ← hs.2]
      cases hl1 : Lookup (UpdateTransferTaskStatusWithoutLock_loop true engine
        m.m_TaskList m.m_TasksContainer 0).2.1 T0.m_Guid with
      | none =>
        rw [hl1] at hl
        cases hl
      | some r1 =>
        rw [hl1] at hl
        simp only [Option.map_some', Option.some.injEq] at hl
        exact ⟨r1, rfl, by rw [← hl, hrf]⟩

theorem run_reconciled (m : TransferManager) (ops : List Op) (h : Reconciled m)
    (hf : freshGuids m ops = true) : Reconciled (run m ops) := by
  induction ops generalizing m with
  | nil => exact h
  | cons op ops ih =>
    simp only [freshGuids, Bool.and_eq_true] at hf
    exact ih (step m op) (step_reconciled m op h hf.1) hf.2

/-- C1: let the registry start with an empty collection and a Tasks store with distinct
keys, and run any sequence of `addTask`, `removeTask`, `listTasks` and UI-timer ticks in
which every `addTask` gets a GUID that is not yet a key. Whatever the collection then
holds, and whatever live downloads the engine enumerates, `listTasks f` returns a view
without null slot that holds exactly one handle for each stored record whose file name
contains `f` case-insensitively and no handle for any other id; with the empty filter it
holds exactly one handle for every stored record. The store meant is the one before the
call. -/
theorem listTasks_lists_matching_records (m : TransferManager) (ops : List Op) (f : String)
    (env : ListEnv) (h0 : m.m_TaskList = []) (hkeys : (keys m.m_TasksContainer).Nodup)
    (hfresh : freshGuids m ops = true) :
    (∀ slot ∈ (listTasks (run m ops) f env).2, slot ≠ none) ∧
    (∀ k r, Lookup (run m ops).m_TasksContainer k = some r →
      M2FindSubString env.CaseMap r.FileName f true = true →
      handlesWithId k (listTasks (run m ops) f env).2 = 1) ∧
    (∀ k, (∀ r, Lookup (run m ops).m_TasksContainer k = some r →
        M2FindSubString env.CaseMap r.FileName f true = false) →
      handlesWithId k (listTasks (run m ops) f env).2 = 0) ∧
    (f = "" → ∀ k, k ∈ keys (run m ops).m_TasksContainer →
      handlesWithId k (listTasks (run m ops) f env).2 = 1) := by
  apply listTasks_of_reconciled
  apply run_reconciled _ _ _ hfresh
  refine ⟨hkeys, ?_⟩
  intro T hT
  rw [h0] at hT
  simp at hT

/-- C1 (witness): from the sample registry (records `g1` `My-File.bin` and `g2`
`other.txt`), after a listing, the addition of `g9` (`file (2).bin`) and a tick, the
filter `FILE` lists one handle for `g1`, one for `g9` and none for `g2`. -/
theorem listTasks_lists_matching_records_witness :
    sampleRegistry.m_TaskList = [] ∧
    (keys sampleRegistry.m_TasksContainer).Nodup ∧
    freshGuids sampleRegistry sampleOpsBeforeListing = true ∧
    handlesWithId "g1"
      (listTasks (run sampleRegistry sampleOpsBeforeListing) "FILE" sampleListEnv).2 = 1 ∧
    handlesWithId "g9"
      (listTasks (run sampleRegistry sampleOpsBeforeListing) "FILE" sampleListEnv).2 = 1 ∧
    handlesWithId "g2"
      (listTasks (run sampleRegistry sampleOpsBeforeListing) "FILE" sampleListEnv).2 = 0 := by
  have h := listTasks_lists_matching_records sampleRegistry sampleOpsBeforeListing "FILE"
    sampleListEnv rfl (by decide) (by decide)
  refine ⟨rfl, by decide, by decide,
    h.2.1 "g1" (sampleTask "g1" "My-File.bin" .Queued).GetTaskConfig (by decide) (by decide),
    h.2.1 "g9"
      { SourceUri := "http://x/file.bin"
        FileName := "file (2).bin"
        SaveFolder := "token-F"
        Status := .Queued
        BackgroundTransferGuid := "op-9" } (by decide) (by decide),
    h.2.2.1 "g2" ?_⟩
  intro r hr
  have hl : Lookup (run sampleRegistry sampleOpsBeforeListing).m_TasksContainer "g2" =
      some (sampleTask "g2" "other.txt" .Queued).GetTaskConfig := by decide
  rw [hl] at hr
  rw [← Option.some.inj hr]
  decide

end Assassin
